import Mathlib

set_option maxRecDepth 65536

/-!
Verification development for the `awlkit` workflow-conversion library.

The Python sources under `src/awlkit` are shallowly embedded below:

* `JVal` models Python/YAML values (the dictionaries the CWL parser and the
  writers exchange); dictionaries are insertion-ordered association lists,
  as Python dicts are.
* A small backtracking regular-expression engine (`Regex`, `reM`, `reSearch`,
  `reFindIter`) models the subset of Python `re` used by the WDL parser and
  the validator: greedy and lazy `*`/`+`/`?`, character classes, `\s \w \d`,
  `.` with and without `re.DOTALL`, `$`, and capture groups, with Python's
  leftmost/backtracking match order.  The engine is fuelled; the fuel bound
  exceeds the recursion depth reachable on the inputs used, so `none` from
  fuel exhaustion never occurs in the evaluated theorems.
* The IR entities (`TypeSpec`, `Input`, `Output`, `Runtime`, `Task`,
  `WorkflowCall`, `Workflow`) mirror `awlkit.ir`, and the parser, writer,
  validator, graph and converter functions mirror their Python sources
  statement by statement.  Python exceptions are modelled with
  `Except PyErr`; CPython builtins (`int()`, `float()`, `str()`,
  `str.strip`, `pathlib.Path.stem`) are modelled on the value domains the
  library feeds them.
-/

namespace Awlkit

/-- Characters matched by Python's `\s` (ASCII range; all inputs in this
development are ASCII). -/
def isSpaceChar (c : Char) : Bool :=
  c = ' ' || c = '\t' || c = '\n' || c = '\r' || c = '\x0b' || c = '\x0c'

/-- Characters matched by Python's `\w` (ASCII range). -/
def isWordChar (c : Char) : Bool :=
  c.isAlpha || c.isDigit || c = '_'

/-- Models Python `str.strip()` on a character list. -/
def stripChars (l : List Char) : List Char :=
  ((l.dropWhile isSpaceChar).reverse.dropWhile isSpaceChar).reverse

/-- Models Python `str.strip()`. -/
def pyStrip (s : String) : String := ⟨stripChars s.data⟩

/-- Splits a character list at every occurrence of `c` (Python `str.split(c)`,
which keeps empty segments). -/
def splitOnChar (c : Char) : List Char → List (List Char)
  | [] => [[]]
  | x :: xs =>
    match splitOnChar c xs with
    | [] => [[]]
    | seg :: rest => if x = c then [] :: seg :: rest else (x :: seg) :: rest

/-- Models Python `sub in s` for character lists. -/
def containsSub (needle : List Char) : List Char → Bool
  | [] => needle.isPrefixOf []
  | c :: rest => needle.isPrefixOf (c :: rest) || containsSub needle rest

/-- Models Python `sub in s` for strings. -/
def strContains (hay needle : String) : Bool :=
  containsSub needle.data hay.data

/-- Models Python `s.replace(a, b)` for single-character `a`, `b`. -/
def replaceChar (a b : Char) (s : String) : String :=
  ⟨s.data.map (fun c => if c = a then b else c)⟩

/-- Models Python `s.replace(a, "")` for a single-character `a`. -/
def removeChar (a : Char) (s : String) : String :=
  ⟨s.data.filter (fun c => c ≠ a)⟩

/-- Digits of a character list read as a natural number (helper for the
models of Python `int()` / `float()`). -/
def digitsToNat (l : List Char) : Nat :=
  l.foldl (fun acc c => acc * 10 + (c.toNat - '0'.toNat)) 0

/-- Models Python `int(s)` on a string: optional sign and a nonempty run of
digits, surrounded by optional whitespace; anything else raises
`ValueError`, modelled as `none`. -/
def pyIntOfString (s : String) : Option Int :=
  let t := stripChars s.data
  match t with
  | '-' :: ds => if ds ≠ [] && ds.all Char.isDigit then some (-(digitsToNat ds : Int)) else none
  | ds => if ds ≠ [] && ds.all Char.isDigit then some (digitsToNat ds : Int) else none

/-- An exact decimal: `num / 10 ^ frac`.  Stands in for the Python floats
this library produces from decimal literals; on the value ranges the
theorems quantify over, IEEE doubles represent these decimals' relevant
products exactly, so the decimal value is the float value. -/
structure PyFloat where
  num : Int
  frac : Nat
deriving DecidableEq, Repr

/-- Multiplication of a parsed float by an integer constant. -/
def PyFloat.scale (f : PyFloat) (k : Int) : PyFloat :=
  { f with num := f.num * k }

/-- Models Python `float(s)` on plain decimal literals (optional sign,
digits with at most one decimal point, at least one digit), the only float
syntax this library feeds it.  Other strings raise `ValueError`, modelled
as `none`. -/
def pyFloatOfString (s : String) : Option PyFloat :=
  let t := stripChars s.data
  let core := fun (l : List Char) (sign : Int) =>
    match splitOnChar '.' l with
    | [ip] =>
      if ip ≠ [] && ip.all Char.isDigit then
        some { num := sign * digitsToNat ip, frac := 0 }
      else none
    | [ip, fp] =>
      if (ip ++ fp) ≠ [] && (ip ++ fp).all Char.isDigit then
        some { num := sign * digitsToNat (ip ++ fp), frac := fp.length }
      else none
    | _ => none
  match t with
  | '-' :: rest => core rest (-1)
  | l => core l 1

/-- Models Python `int(x)` on a float: truncation toward zero. -/
def pyTrunc (f : PyFloat) : Int :=
  if 0 ≤ f.num then ((f.num.toNat / 10 ^ f.frac : Nat) : Int)
  else -((((-f.num).toNat / 10 ^ f.frac : Nat)) : Int)

/-- Python values as exchanged through YAML documents and `Any`-typed
fields: strings, ints, booleans, `None`, lists, and insertion-ordered
dictionaries. -/
inductive JVal where
  | str (s : String)
  | int (n : Int)
  | bool (b : Bool)
  | null
  | list (xs : List JVal)
  | dict (kvs : List (String × JVal))

namespace JVal

/-- Models Python `d.get(k)` on a dictionary value (first, i.e. only,
binding of the key). -/
def dictGet (kvs : List (String × JVal)) (k : String) : Option JVal :=
  (kvs.find? (fun kv => kv.1 = k)).map (·.2)

/-- Models Python `d[k] = v`: replace the value in place if the key exists,
otherwise append the binding (insertion order). -/
def dictSet (kvs : List (String × JVal)) (k : String) (v : JVal) : List (String × JVal) :=
  if (kvs.find? (fun kv => kv.1 = k)).isSome then
    kvs.map (fun kv => if kv.1 = k then (k, v) else kv)
  else
    kvs ++ [(k, v)]

/-- Models Python `k in d`. -/
def dictHas (kvs : List (String × JVal)) (k : String) : Bool :=
  (kvs.find? (fun kv => kv.1 = k)).isSome

/-- Models Python truthiness of the values this library branches on. -/
def truthy : JVal → Bool
  | .str s => s ≠ ""
  | .int n => n ≠ 0
  | .bool b => b
  | .null => false
  | .list xs => !xs.isEmpty
  | .dict kvs => !kvs.isEmpty

mutual

/-- Models Python `str(v)`.  String quoting inside nested `repr` output is
omitted; the library only inspects these strings for substrings (`'null'`)
and joins command tokens, which this rendering preserves for the inputs it
receives. -/
def pyStr : JVal → String
  | .str s => s
  | .int n => if n < 0 then "-" ++ toString (-n).toNat else toString n.toNat
  | .bool b => if b then "True" else "False"
  | .null => "None"
  | .list xs => "[" ++ ", ".intercalate (pyStrList xs) ++ "]"
  | .dict kvs => "\x7b" ++ ", ".intercalate (pyStrPairs kvs) ++ "\x7d"

def pyStrList : List JVal → List String
  | [] => []
  | x :: xs => pyStr x :: pyStrList xs

def pyStrPairs : List (String × JVal) → List String
  | [] => []
  | (k, v) :: xs => (k ++ ": " ++ pyStr v) :: pyStrPairs xs

end

end JVal

/-- Python exception classes raised by the embedded code. -/
inductive PyErr where
  | nameError (n : String)
  | valueError (msg : String)
  | attributeError (msg : String)
  | typeError (msg : String)
  | validationError (msg : String)

/-! ## A model of the subset of Python `re` used by the library -/

/-- One item of a regex character class. -/
inductive RCls where
  | ch (c : Char)
  | digit
  | word
  | space

/-- Does character class item `i` match character `c`? -/
def RCls.mem (c : Char) : RCls → Bool
  | .ch d => c = d
  | .digit => c.isDigit
  | .word => isWordChar c
  | .space => isSpaceChar c

/-- Abstract syntax of the regex subset used by `awlkit` patterns. -/
inductive Regex where
  | eps
  | lit (c : Char)
  | cls (neg : Bool) (items : List RCls)
  | dot (dotall : Bool)
  | eos
  | seq (a b : Regex)
  | alt (a b : Regex)
  | star (greedy : Bool) (a : Regex)
  | grp (i : Nat) (a : Regex)

namespace Regex

/-- Structural size, used to compute a sufficient fuel bound. -/
def size : Regex → Nat
  | .eps | .lit _ | .cls _ _ | .dot _ | .eos => 1
  | .seq a b | .alt a b => a.size + b.size + 1
  | .star _ a | .grp _ a => a.size + 1

/-- Sequence of regexes. -/
def rseq (l : List Regex) : Regex := l.foldr Regex.seq Regex.eps

/-- Literal string regex. -/
def rstr (s : String) : Regex := rseq (s.data.map Regex.lit)

/-- Python `X+` / `X+?`. -/
def rplus (greedy : Bool) (a : Regex) : Regex := .seq a (.star greedy a)

/-- Python `X?` (greedy) or `X??`. -/
def ropt (greedy : Bool) (a : Regex) : Regex :=
  if greedy then .alt a .eps else .alt .eps a

/-- Python `\s*`. -/
def wsS : Regex := .star true (.cls false [.space])

/-- Python `\s+`. -/
def wsP : Regex := rplus true (.cls false [.space])

/-- Python `\w+`. -/
def wordP : Regex := rplus true (.cls false [.word])

end Regex

/-- Capture list: group index paired with the half-open source span it last
matched. -/
def Caps := List (Nat × Nat × Nat)

/-- Record the span of group `i` (later writes shadow earlier ones). -/
def capSet (caps : Caps) (i : Nat) (v : Nat × Nat) : Caps :=
  ((i, v) : Nat × Nat × Nat) :: (caps : List (Nat × Nat × Nat))

/-- Look up the span of group `i`. -/
def capGet (caps : Caps) (i : Nat) : Option (Nat × Nat) :=
  ((caps : List (Nat × Nat × Nat)).find? (fun kv => kv.1 = i)).map (·.2)

/-- Result of a successful regex match: overall span plus captures. -/
structure RMatch where
  mstart : Nat
  mend : Nat
  caps : Caps

/-- The continuation-passing backtracking matcher, mirroring Python's
backtracking order: alternatives left first, greedy repetition longest
first, lazy repetition shortest first, and a repetition iteration that
consumes nothing is not repeated.  `pos` is the absolute position of
`rest` in the subject; the continuation receives the updated position,
remaining input and captures.  Fuel decreases on every recursive call; the
bound chosen by `reFuel` exceeds any reachable depth. -/
def reM (fuel : Nat) (r : Regex) (pos : Nat) (rest : List Char) (caps : Caps)
    (k : Nat → List Char → Caps → Option RMatch) : Option RMatch :=
  match fuel with
  | 0 => none
  | fuel + 1 =>
    match r with
    | .eps => k pos rest caps
    | .lit c =>
      match rest with
      | [] => none
      | c2 :: rest2 => if c2 = c then k (pos + 1) rest2 caps else none
    | .cls neg items =>
      match rest with
      | [] => none
      | c2 :: rest2 => if (items.any (RCls.mem c2)) ≠ neg then k (pos + 1) rest2 caps else none
    | .dot dotall =>
      match rest with
      | [] => none
      | c2 :: rest2 => if dotall || c2 ≠ '\n' then k (pos + 1) rest2 caps else none
    | .eos => if rest = [] || rest = ['\n'] then k pos rest caps else none
    | .seq a b => reM fuel a pos rest caps (fun p2 r2 c2 => reM fuel b p2 r2 c2 k)
    | .alt a b =>
      match reM fuel a pos rest caps k with
      | some m => some m
      | none => reM fuel b pos rest caps k
    | .star greedy a =>
      if greedy then
        match reM fuel a pos rest caps (fun p2 r2 c2 =>
            if p2 = pos then none else reM fuel (.star greedy a) p2 r2 c2 k) with
        | some m => some m
        | none => k pos rest caps
      else
        match k pos rest caps with
        | some m => some m
        | none =>
          reM fuel a pos rest caps (fun p2 r2 c2 =>
            if p2 = pos then none else reM fuel (.star greedy a) p2 r2 c2 k)
    | .grp i a => reM fuel a pos rest caps (fun p2 r2 c2 => k p2 r2 (capSet c2 i (pos, p2)))

/-- Fuel bound: at most `size` nested calls are spent between consuming two
characters, so this dominates the reachable recursion depth. -/
def reFuel (r : Regex) (rest : List Char) : Nat :=
  (r.size + 2) * (rest.length + 2)

/-- Try to match `r` at exactly one position. -/
def reMatchAt (r : Regex) (pos : Nat) (rest : List Char) : Option RMatch :=
  reM (reFuel r rest) r pos rest [] (fun p _ c => some ⟨pos, p, c⟩)

/-- Models `re.search` scanning from position `pos` (with `rest` the
corresponding suffix): the leftmost matching position wins. -/
def reSearchFrom (r : Regex) : Nat → List Char → Option RMatch
  | pos, rest =>
    match reMatchAt r pos rest with
    | some m => some m
    | none =>
      match rest with
      | [] => none
      | _ :: rest2 => reSearchFrom r (pos + 1) rest2

/-- Models `re.search` on a whole subject. -/
def reSearch (r : Regex) (s : List Char) : Option RMatch :=
  reSearchFrom r 0 s

/-- The slice `s[a:b]` of the subject. -/
def sliceL (s : List Char) (a b : Nat) : List Char :=
  ((s.drop a).take (b - a))

/-- Group `i` of a match (`none` when the group did not participate). -/
def RMatch.group (m : RMatch) (s : List Char) (i : Nat) : Option String :=
  (capGet m.caps i).map (fun ab => ⟨sliceL s ab.1 ab.2⟩)

/-- Models `re.finditer`: repeated non-overlapping searches; after a match
the scan resumes at its end (one past it for an empty match). -/
def reFindIterAux (r : Regex) : Nat → Nat → List Char → List RMatch
  | 0, _, _ => []
  | fuel + 1, pos, rest =>
    match reSearchFrom r pos rest with
    | none => []
    | some m =>
      let nextPos := if m.mend > m.mstart then m.mend else m.mend + 1
      m :: reFindIterAux r fuel nextPos (rest.drop (nextPos - pos))

/-- Models `re.finditer` over a whole subject. -/
def reFindIter (r : Regex) (s : List Char) : List RMatch :=
  reFindIterAux r (s.length + 2) 0 s

/-- Models `re.findall` for a pattern with one capture group. -/
def reFindAll1 (r : Regex) (s : List Char) : List String :=
  (reFindIter r s).filterMap (fun m => m.group s 1)

/-- Models Python `s.split()` with no argument: split on whitespace runs,
dropping empty segments. -/
def pySplitWS (s : String) : List String :=
  ((s.data.splitOnP isSpaceChar).filter (fun l => !l.isEmpty)).map (fun l => (⟨l⟩ : String))

/-- Models Python `s.split(c)` for a one-character separator. -/
def pySplitChar (c : Char) (s : String) : List String :=
  (splitOnChar c s.data).map (fun l => (⟨l⟩ : String))

/-- Replace every occurrence of a nonempty `needle` by `repl`
(Python `str.replace`, left to right, non-overlapping). -/
def replaceSubAux (needle repl : List Char) : Nat → List Char → List Char
  | 0, l => l
  | _ + 1, [] => []
  | fuel + 1, c :: rest =>
    if needle ≠ [] && needle.isPrefixOf (c :: rest) then
      repl ++ replaceSubAux needle repl fuel ((c :: rest).drop needle.length)
    else
      c :: replaceSubAux needle repl fuel rest

/-- Models Python `s.replace(needle, repl)` for nonempty `needle`. -/
def pyReplace (s needle repl : String) : String :=
  ⟨replaceSubAux needle.data repl.data (s.data.length + 1) s.data⟩

/-- Models Python `s.lstrip(c)` for a one-character strip set. -/
def pyLstripChar (c : Char) (s : String) : String :=
  ⟨s.data.dropWhile (fun d => d = c)⟩

/-- Models `pathlib.Path(p).stem`: the final path component without its
last suffix (a leading dot does not start a suffix). -/
def pathStem (p : String) : String :=
  let comp := (splitOnChar '/' p.data).getLastD []
  match comp with
  | [] => ""
  | c0 :: rest =>
    let body := c0 :: rest
    let idx := (List.range body.length).filter (fun i => body.getD i ' ' = '.' && i ≠ 0)
    match idx.getLast? with
    | none => ⟨body⟩
    | some i => ⟨body.take i⟩

/-! ## IR entities (`awlkit.ir`) -/

/-- `WorkflowType` from `ir/types.py`. -/
inductive WorkflowType where
  | WORKFLOW | TASK | SUBWORKFLOW
deriving DecidableEq, Repr

/-- `DataType` from `ir/types.py`. -/
inductive DataType where
  | STRING | INT | FLOAT | BOOLEAN | FILE | DIRECTORY | ARRAY | MAP | OBJECT | OPTIONAL
deriving DecidableEq, Repr

/-- Enum value strings of `DataType` (`DataType.<X>.value`). -/
def DataType.value : DataType → String
  | .STRING => "String"
  | .INT => "Int"
  | .FLOAT => "Float"
  | .BOOLEAN => "Boolean"
  | .FILE => "File"
  | .DIRECTORY => "Directory"
  | .ARRAY => "Array"
  | .MAP => "Map"
  | .OBJECT => "Object"
  | .OPTIONAL => "Optional"

/-- `TypeSpec` from `ir/types.py`: base type, optional item type (arrays),
optional key/value types (maps), and the `optional` flag.  Pydantic model
equality is field-wise equality. -/
inductive TypeSpec where
  | mk (base_type : DataType) (item_type key_type value_type : Option TypeSpec)
      (optional : Bool)

namespace TypeSpec

def base_type : TypeSpec → DataType
  | .mk b _ _ _ _ => b

def item_type : TypeSpec → Option TypeSpec
  | .mk _ i _ _ _ => i

def key_type : TypeSpec → Option TypeSpec
  | .mk _ _ k _ _ => k

def value_type : TypeSpec → Option TypeSpec
  | .mk _ _ _ v _ => v

def optional : TypeSpec → Bool
  | .mk _ _ _ _ o => o

/-- Convenience constructor matching `TypeSpec(base_type=b)` with pydantic
defaults. -/
def simple (b : DataType) (opt : Bool := false) : TypeSpec :=
  .mk b none none none opt

/-- `TypeSpec.to_wdl_string`.  Accessing `item_type`/`key_type`/`value_type`
when they are `None` raises `AttributeError`, modelled as `none`. -/
def to_wdl_string : TypeSpec → Option String
  | .mk b i k v o =>
    if b = .ARRAY then
      match i with
      | none => none
      | some it => (to_wdl_string it).map (fun s => "Array[" ++ s ++ "]")
    else if b = .MAP then
      match k, v with
      | some kt, some vt =>
        match to_wdl_string kt, to_wdl_string vt with
        | some ks, some vs => some ("Map[" ++ ks ++ "," ++ vs ++ "]")
        | _, _ => none
      | _, _ => none
    else if o then
      some (b.value ++ "?")
    else
      some b.value

/-- The `cwl_mapping` table inside `TypeSpec.to_cwl_type`. -/
def cwl_mapping : DataType → Option String
  | .STRING => some "string"
  | .INT => some "int"
  | .FLOAT => some "float"
  | .BOOLEAN => some "boolean"
  | .FILE => some "File"
  | .DIRECTORY => some "Directory"
  | _ => none

/-- `TypeSpec.to_cwl_type`: array becomes `(type: array, items: ...)`,
a mapped primitive becomes its name (wrapped as `["null", base]` when
optional), anything else falls back to `"Any"`. -/
def to_cwl_type : TypeSpec → Option JVal
  | .mk b i _ _ o =>
    if b = .ARRAY then
      match i with
      | none => none
      | some it =>
        (to_cwl_type it).map (fun sub =>
          JVal.dict [("type", JVal.str "array"), ("items", sub)])
    else
      match cwl_mapping b with
      | some base => some (if o then JVal.list [JVal.str "null", JVal.str base] else JVal.str base)
      | none => some (JVal.str "Any")

/-- `to_cwl_type` lifted to `Except`: the `AttributeError` on a missing
`item_type` becomes an error value. -/
def to_cwl_typeE (t : TypeSpec) : Except PyErr JVal :=
  match t.to_cwl_type with
  | some v => .ok v
  | none => .error (.attributeError "NoneType has no attribute to_cwl_type")

/-- `to_wdl_string` lifted to `Except`. -/
def to_wdl_stringE (t : TypeSpec) : Except PyErr String :=
  match t.to_wdl_string with
  | some v => .ok v
  | none => .error (.attributeError "NoneType has no attribute to_wdl_string")

end TypeSpec

/-- `Input` from `ir/io.py`. -/
structure Input where
  name : String
  type_spec : TypeSpec
  description : Option String := none
  default : Option JVal := none
  optional : Bool := false

/-- `Output` from `ir/io.py`. -/
structure Output where
  name : String
  type_spec : TypeSpec
  description : Option String := none
  expression : Option String := none

/-- Truthiness of an `Optional[str]` field (`None` and `""` are falsy). -/
def optStrTruthy : Option String → Bool
  | none => false
  | some s => s ≠ ""

/-- Truthiness of an `Optional[int]` field (`None` and `0` are falsy). -/
def optIntTruthy : Option Int → Bool
  | none => false
  | some n => n ≠ 0

namespace Input

/-- `Input.to_cwl`, state-passing: the returned `Input` is the post-state of
`self` (the method body contains no writes to `self`). -/
def to_cwlS (inp : Input) : Except PyErr (JVal × Input) := do
  let ty ← inp.type_spec.to_cwl_typeE
  let cwl_input := [("id", JVal.str inp.name), ("type", ty)]
  let cwl_input := if optStrTruthy inp.description then
      JVal.dictSet cwl_input "doc" (JVal.str (inp.description.getD "")) else cwl_input
  let cwl_input := match inp.default with
    | some d => JVal.dictSet cwl_input "default" d
    | none => cwl_input
  return (JVal.dict cwl_input, inp)

/-- `Input.to_cwl`. -/
def to_cwl (inp : Input) : Except PyErr JVal := (inp.to_cwlS).map (·.1)

/-- `Input.to_wdl`, state-passing. -/
def to_wdlS (inp : Input) : Except PyErr (String × Input) := do
  let type_str ← inp.type_spec.to_wdl_stringE
  match inp.default with
  | some d => return (type_str ++ " " ++ inp.name ++ " = " ++ JVal.pyStr d, inp)
  | none => return (type_str ++ " " ++ inp.name, inp)

/-- `Input.to_wdl`. -/
def to_wdl (inp : Input) : Except PyErr String := (inp.to_wdlS).map (·.1)

end Input

namespace Output

/-- `Output.to_cwl`, state-passing. -/
def to_cwlS (out : Output) : Except PyErr (JVal × Output) := do
  let ty ← out.type_spec.to_cwl_typeE
  let cwl_output := [("id", JVal.str out.name), ("type", ty)]
  let cwl_output := if optStrTruthy out.description then
      JVal.dictSet cwl_output "doc" (JVal.str (out.description.getD "")) else cwl_output
  let cwl_output := if optStrTruthy out.expression then
      JVal.dictSet cwl_output "outputBinding"
        (JVal.dict [("glob", JVal.str (out.expression.getD ""))]) else cwl_output
  return (JVal.dict cwl_output, out)

/-- `Output.to_cwl`. -/
def to_cwl (out : Output) : Except PyErr JVal := (out.to_cwlS).map (·.1)

/-- `Output.to_wdl`, state-passing. -/
def to_wdlS (out : Output) : Except PyErr (String × Output) := do
  let type_str ← out.type_spec.to_wdl_stringE
  if optStrTruthy out.expression then
    return (type_str ++ " " ++ out.name ++ " = " ++ out.expression.getD "", out)
  else
    return (type_str ++ " " ++ out.name, out)

/-- `Output.to_wdl`. -/
def to_wdl (out : Output) : Except PyErr String := (out.to_wdlS).map (·.1)

end Output

/-- `Runtime` from `ir/runtime.py`. -/
structure Runtime where
  cpu : Option Int := none
  memory : Option String := none
  disk : Option String := none
  docker : Option String := none
  maxRetries : Option Int := none
  continueOnReturnCode : Option Bool := none
  gpu : Option Bool := none
  zones : Option (List String) := none
  preemptible : Option Int := none
  custom_attributes : List (String × JVal) := []

namespace Runtime

/-- `Runtime._parse_memory_to_mb`: strips the string, handles a `G` suffix
(`float` value times 1024) and an `M` suffix (`int` as-is); any other
string goes to `int()` directly.  `ValueError` is modelled as `none`. -/
def parse_memory_to_mb (memory_str : String) : Option Int :=
  let m := stripChars memory_str.data
  if m.getLast? = some 'G' then
    (pyFloatOfString ⟨m.dropLast⟩).map (fun q => pyTrunc (q.scale 1024))
  else if m.getLast? = some 'M' then
    pyIntOfString ⟨m.dropLast⟩
  else
    pyIntOfString ⟨m⟩

/-- `Runtime._parse_disk_to_mb`: like the memory parser but with an
additional `T` branch (`float` value times 1024 times 1024). -/
def parse_disk_to_mb (disk_str : String) : Option Int :=
  let m := stripChars disk_str.data
  if m.getLast? = some 'G' then
    (pyFloatOfString ⟨m.dropLast⟩).map (fun q => pyTrunc (q.scale 1024))
  else if m.getLast? = some 'T' then
    (pyFloatOfString ⟨m.dropLast⟩).map (fun q => pyTrunc ((q.scale 1024).scale 1024))
  else if m.getLast? = some 'M' then
    pyIntOfString ⟨m.dropLast⟩
  else
    pyIntOfString ⟨m⟩

/-- The `ramMin` statement of `Runtime.to_cwl_requirements`: when `memory`
is truthy, normalise it to MB (a `ValueError` propagates) and set
`ramMin`. -/
def ramStep (resource_req : List (String × JVal)) (memory : Option String) :
    Except PyErr (List (String × JVal)) :=
  if optStrTruthy memory then
    match parse_memory_to_mb (memory.getD "") with
    | some mb => pure (JVal.dictSet resource_req "ramMin" (JVal.int mb))
    | none => .error (.valueError "invalid literal for int()")
  else pure resource_req

/-- The `outdirMin` statement of `Runtime.to_cwl_requirements`. -/
def outdirStep (resource_req : List (String × JVal)) (disk : Option String) :
    Except PyErr (List (String × JVal)) :=
  if optStrTruthy disk then
    match parse_disk_to_mb (disk.getD "") with
    | some mb => pure (JVal.dictSet resource_req "outdirMin" (JVal.int mb))
    | none => .error (.valueError "invalid literal for int()")
  else pure resource_req

/-- `Runtime.to_cwl_requirements`, state-passing: emits a
`DockerRequirement` when `docker` is truthy and a `ResourceRequirement`
when any of `cpu`/`memory`/`disk` is truthy; a `ValueError` from the
memory/disk normalisers propagates. -/
def to_cwl_requirementsS (rt : Runtime) : Except PyErr (List JVal × Runtime) := do
  let requirements : List JVal :=
    if optStrTruthy rt.docker then
      [JVal.dict [("class", JVal.str "DockerRequirement"),
                  ("dockerPull", JVal.str (rt.docker.getD ""))]]
    else []
  let resource_req : List (String × JVal) := [("class", JVal.str "ResourceRequirement")]
  let resource_req := if optIntTruthy rt.cpu then
      JVal.dictSet resource_req "coresMin" (JVal.int (rt.cpu.getD 0)) else resource_req
  let resource_req ← ramStep resource_req rt.memory
  let resource_req ← outdirStep resource_req rt.disk
  let requirements := if resource_req.length > 1 then
      requirements ++ [JVal.dict resource_req] else requirements
  return (requirements, rt)

/-- `Runtime.to_cwl_requirements`. -/
def to_cwl_requirements (rt : Runtime) : Except PyErr (List JVal) :=
  (rt.to_cwl_requirementsS).map (·.1)

/-- `Runtime.to_wdl_runtime`, state-passing: the WDL runtime section as an
ordered mapping, with `custom_attributes` merged in at the end. -/
def to_wdl_runtimeS (rt : Runtime) : (List (String × JVal)) × Runtime :=
  let runtime : List (String × JVal) := []
  let runtime := if optIntTruthy rt.cpu then
      JVal.dictSet runtime "cpu" (JVal.int (rt.cpu.getD 0)) else runtime
  let runtime := if optStrTruthy rt.memory then
      JVal.dictSet runtime "memory" (JVal.str (rt.memory.getD "")) else runtime
  let runtime := if optStrTruthy rt.disk then
      JVal.dictSet runtime "disks"
        (JVal.str ("local-disk " ++ rt.disk.getD "" ++ " HDD")) else runtime
  let runtime := if optStrTruthy rt.docker then
      JVal.dictSet runtime "docker" (JVal.str (rt.docker.getD "")) else runtime
  let runtime := match rt.maxRetries with
    | some n => JVal.dictSet runtime "maxRetries" (JVal.int n)
    | none => runtime
  let runtime := match rt.preemptible with
    | some n => JVal.dictSet runtime "preemptible" (JVal.int n)
    | none => runtime
  let runtime := rt.custom_attributes.foldl (fun acc kv => JVal.dictSet acc kv.1 kv.2) runtime
  (runtime, rt)

/-- `Runtime.to_wdl_runtime`. -/
def to_wdl_runtime (rt : Runtime) : List (String × JVal) := (rt.to_wdl_runtimeS).1

end Runtime

/-- Thread an effectful, state-returning method over a list, collecting the
results and the post-states (models a Python `for` loop of method calls). -/
def threadE {α β : Type} (f : α → Except PyErr (β × α)) : List α → Except PyErr (List β × List α)
  | [] => .ok ([], [])
  | x :: xs => do
    let (b, x2) ← f x
    let (bs, xs2) ← threadE f xs
    return (b :: bs, x2 :: xs2)

/-- The pattern `[~$]\x7b(\w+)\x7d` used for command interpolation markers
(in `Task._parse_command_to_cwl` and `WorkflowValidator._validate_task`). -/
def cmdVarPat : Regex :=
  Regex.rseq [.cls false [.ch '~', .ch '$'], .lit '{', .grp 1 Regex.wordP, .lit '}']

/-- `Task` from `ir/task.py`. -/
structure Task where
  name : String
  inputs : List Input := []
  outputs : List Output := []
  command : String
  runtime : Option Runtime := none
  description : Option String := none

namespace Task

/-- `Task._parse_command_to_cwl`: whitespace-split the stripped command and
replace, in each token containing an interpolation marker, the first-found
marker text by a CWL input reference. -/
def parse_command_to_cwl (t : Task) : List String :=
  let tokens := pySplitWS (pyStrip t.command)
  tokens.map (fun token =>
    if strContains token "~\x7b" || strContains token "$\x7b" then
      match reSearch cmdVarPat token.data with
      | some m =>
        match m.group token.data 0, m.group token.data 1 with
        | some whole, some var_name =>
          pyReplace token whole ("$(inputs." ++ var_name ++ ")")
        | _, _ => token
      | none => token
    else token)

/-- `Task.to_cwl_tool`, state-passing: builds the `CommandLineTool` mapping
(`class`, `id`, `baseCommand`, `inputs`, `outputs`, then `doc`,
`requirements` and `arguments` as applicable, in Python's key insertion
order) and returns the post-state of `self` and its members. -/
def to_cwl_toolS (t : Task) : Except PyErr (JVal × Task) := do
  let (inPairs, inputs2) ← threadE
    (fun (inp : Input) => (inp.to_cwlS).map (fun r => ((inp.name, r.1), r.2))) t.inputs
  let (outPairs, outputs2) ← threadE
    (fun (out : Output) => (out.to_cwlS).map (fun r => ((out.name, r.1), r.2))) t.outputs
  let inputsD := inPairs.foldl (fun acc kv => JVal.dictSet acc kv.1 kv.2) []
  let outputsD := outPairs.foldl (fun acc kv => JVal.dictSet acc kv.1 kv.2) []
  let tool : List (String × JVal) :=
    [("class", JVal.str "CommandLineTool"), ("id", JVal.str t.name),
     ("baseCommand", JVal.list []), ("inputs", JVal.dict inputsD),
     ("outputs", JVal.dict outputsD)]
  let tool := if optStrTruthy t.description then
      JVal.dictSet tool "doc" (JVal.str (t.description.getD "")) else tool
  let (tool, runtime2) ←
    match t.runtime with
    | some rt => do
      let (reqs, rt2) ← rt.to_cwl_requirementsS
      pure (JVal.dictSet tool "requirements" (JVal.list reqs), some rt2)
    | none => pure (tool, (none : Option Runtime))
  let tool := JVal.dictSet tool "arguments" (JVal.list ((parse_command_to_cwl t).map JVal.str))
  return (JVal.dict tool, { t with inputs := inputs2, outputs := outputs2, runtime := runtime2 })

/-- `Task.to_cwl_tool`. -/
def to_cwl_tool (t : Task) : Except PyErr JVal := (t.to_cwl_toolS).map (·.1)

/-- `Task.to_wdl_task`, state-passing: renders the WDL `task` block. -/
def to_wdl_taskS (t : Task) : Except PyErr (String × Task) := do
  let lines : List String := ["task " ++ t.name ++ " \x7b"]
  let lines := if optStrTruthy t.description then
      lines ++ ["  meta \x7b", "    description: \"" ++ t.description.getD "" ++ "\"", "  \x7d"]
    else lines
  let (inLines, inputs2) ← threadE Input.to_wdlS t.inputs
  let lines := if !t.inputs.isEmpty then
      lines ++ ["  input \x7b"] ++ inLines.map (fun s => "    " ++ s) ++ ["  \x7d"]
    else lines
  let lines := lines ++ ["  command <<<"]
    ++ (pySplitChar '\n' (pyStrip t.command)).map (fun s => "    " ++ s) ++ ["  >>>"]
  let (lines, runtime2) ←
    match t.runtime with
    | some rt =>
      let (rd, rt2) := rt.to_wdl_runtimeS
      pure (lines ++ ["  runtime \x7b"]
        ++ rd.map (fun kv =>
            match kv.2 with
            | JVal.str v => "    " ++ kv.1 ++ ": \"" ++ v ++ "\""
            | v => "    " ++ kv.1 ++ ": " ++ JVal.pyStr v)
        ++ ["  \x7d"], some rt2)
    | none => pure (lines, (none : Option Runtime))
  let (outLines, outputs2) ← threadE Output.to_wdlS t.outputs
  let lines := if !t.outputs.isEmpty then
      lines ++ ["  output \x7b"] ++ outLines.map (fun s => "    " ++ s) ++ ["  \x7d"]
    else lines
  let lines := lines ++ ["\x7d"]
  return ("\n".intercalate lines,
    { t with inputs := inputs2, outputs := outputs2, runtime := runtime2 })

/-- `Task.to_wdl_task`. -/
def to_wdl_task (t : Task) : Except PyErr String := (t.to_wdl_taskS).map (·.1)

end Task

/-- `WorkflowCall` from `ir/workflow.py`. -/
structure WorkflowCall where
  call_id : String
  task_name : String
  inputs : List (String × JVal) := []
  scatter : Option String := none
  conditional : Option String := none

/-- `Workflow` from `ir/workflow.py`. -/
structure Workflow where
  name : String
  type : WorkflowType := .WORKFLOW
  inputs : List Input := []
  outputs : List Output := []
  tasks : List (String × Task) := []
  calls : List WorkflowCall := []
  imports : List String := []
  description : Option String := none

/-- A `networkx.DiGraph` restricted to what the library uses: insertion-
ordered node and edge lists without duplicates. -/
structure NxDiGraph where
  nodes : List String := []
  edges : List (String × String) := []

namespace NxDiGraph

/-- `graph.add_node`: adding an existing node is a no-op. -/
def add_node (g : NxDiGraph) (n : String) : NxDiGraph :=
  if n ∈ g.nodes then g else { g with nodes := g.nodes ++ [n] }

/-- `graph.add_edge`: endpoints are added as nodes if missing; re-adding an
existing edge is a no-op. -/
def add_edge (g : NxDiGraph) (a b : String) : NxDiGraph :=
  let g := g.add_node a
  let g := g.add_node b
  if (a, b) ∈ g.edges then g else { g with edges := g.edges ++ [(a, b)] }

/-- Successors of a node. -/
def succ (g : NxDiGraph) (n : String) : List String :=
  (g.edges.filter (fun e => e.1 = n)).map (·.2)

/-- In-degree of a node. -/
def indeg (g : NxDiGraph) (n : String) : Nat :=
  (g.edges.filter (fun e => e.2 = n)).length

end NxDiGraph

namespace Workflow

/-- `Workflow.add_task`: `self.tasks[task.name] = task`. -/
def add_task (wf : Workflow) (t : Task) : Workflow :=
  { wf with tasks :=
      if (wf.tasks.find? (fun kv => kv.1 = t.name)).isSome then
        wf.tasks.map (fun kv => if kv.1 = t.name then (t.name, t) else kv)
      else wf.tasks ++ [(t.name, t)] }

/-- `Workflow.add_call`: `self.calls.append(call)`. -/
def add_call (wf : Workflow) (c : WorkflowCall) : Workflow :=
  { wf with calls := wf.calls ++ [c] }

/-- Models Python `task_name in self.tasks`. -/
def hasTask (wf : Workflow) (n : String) : Bool :=
  (wf.tasks.find? (fun kv => kv.1 = n)).isSome

/-- Models Python `self.tasks[n]`. -/
def getTask (wf : Workflow) (n : String) : Option Task :=
  (wf.tasks.find? (fun kv => kv.1 = n)).map (·.2)

/-- `Workflow.get_dependency_graph`: one node per `call_id`, and an edge
`dep -> call` whenever a call input value is a two-part dotted string whose
first part is some call's id. -/
def get_dependency_graph (wf : Workflow) : NxDiGraph :=
  let graph : NxDiGraph := {}
  let graph := wf.calls.foldl (fun g c => g.add_node c.call_id) graph
  wf.calls.foldl (fun g c =>
    c.inputs.foldl (fun g kv =>
      match kv.2 with
      | JVal.str v =>
        if strContains v "." then
          match pySplitChar '.' v with
          | [dep, _] =>
            if dep ∈ wf.calls.map WorkflowCall.call_id then g.add_edge dep c.call_id else g
          | _ => g
        else g
      | _ => g) g) graph

/-- Step mapping built for one call inside `Workflow.to_cwl_workflow`. -/
def stepOfCall (wf : Workflow) (call : WorkflowCall) : JVal :=
  let step : List (String × JVal) :=
    [("run", JVal.str ("#" ++ call.task_name)), ("in", JVal.dict []), ("out", JVal.list [])]
  let inMap := call.inputs.foldl (fun acc kv =>
    match kv.2 with
    | JVal.str v =>
      if strContains v "." then JVal.dictSet acc kv.1 (JVal.str (replaceChar '.' '/' v))
      else JVal.dictSet acc kv.1 kv.2
    | _ => JVal.dictSet acc kv.1 kv.2) []
  let step := JVal.dictSet step "in" (JVal.dict inMap)
  let step := match wf.getTask call.task_name with
    | some task => JVal.dictSet step "out" (JVal.list (task.outputs.map (fun o => JVal.str o.name)))
    | none => step
  let step := if optStrTruthy call.scatter then
      JVal.dictSet (JVal.dictSet step "scatter" (JVal.str (call.scatter.getD "")))
        "scatterMethod" (JVal.str "dotproduct")
    else step
  JVal.dict step

/-- `Workflow.to_cwl_workflow`, state-passing: builds the CWL `Workflow`
mapping; reads of `self.tasks` for `step.out` do not mutate them. -/
def to_cwl_workflowS (wf : Workflow) : Except PyErr (JVal × Workflow) := do
  let workflow : List (String × JVal) :=
    [("class", JVal.str "Workflow"), ("id", JVal.str wf.name),
     ("inputs", JVal.dict []), ("outputs", JVal.dict []), ("steps", JVal.dict [])]
  let workflow := if optStrTruthy wf.description then
      JVal.dictSet workflow "doc" (JVal.str (wf.description.getD "")) else workflow
  let (inPairs, inputs2) ← threadE
    (fun (inp : Input) => (inp.to_cwlS).map (fun r => ((inp.name, r.1), r.2))) wf.inputs
  let (outPairs, outputs2) ← threadE
    (fun (out : Output) => (out.to_cwlS).map (fun r => ((out.name, r.1), r.2))) wf.outputs
  let workflow := JVal.dictSet workflow "inputs"
    (JVal.dict (inPairs.foldl (fun acc kv => JVal.dictSet acc kv.1 kv.2) []))
  let workflow := JVal.dictSet workflow "outputs"
    (JVal.dict (outPairs.foldl (fun acc kv => JVal.dictSet acc kv.1 kv.2) []))
  let steps := wf.calls.foldl (fun acc call =>
    JVal.dictSet acc call.call_id (stepOfCall wf call)) []
  let workflow := JVal.dictSet workflow "steps" (JVal.dict steps)
  let workflow := if !wf.tasks.isEmpty then
      JVal.dictSet workflow "requirements"
        (JVal.list [JVal.dict [("class", JVal.str "SubworkflowFeatureRequirement")]])
    else workflow
  return (JVal.dict workflow, { wf with inputs := inputs2, outputs := outputs2 })

/-- `Workflow.to_cwl_workflow`. -/
def to_cwl_workflow (wf : Workflow) : Except PyErr JVal := (wf.to_cwl_workflowS).map (·.1)

/-- Lines rendered for one call inside `Workflow.to_wdl_workflow`. -/
def wdlCallLines (call : WorkflowCall) : List String :=
  let scatterLines := if optStrTruthy call.scatter then
      ["  scatter (" ++ call.scatter.getD "" ++ ") \x7b"] else []
  let indent := if optStrTruthy call.scatter then "    " else "  "
  let condLines := if optStrTruthy call.conditional then
      [indent ++ "if (" ++ call.conditional.getD "" ++ ") \x7b"] else []
  let indent := if optStrTruthy call.conditional then indent ++ "  " else indent
  let callLines :=
    if !call.inputs.isEmpty then
      [indent ++ "call " ++ call.task_name ++ " as " ++ call.call_id ++ " \x7b",
       indent ++ "  input:"]
      ++ call.inputs.map (fun kv => indent ++ "    " ++ kv.1 ++ " = " ++ JVal.pyStr kv.2)
      ++ [indent ++ "\x7d"]
    else
      [indent ++ "call " ++ call.task_name ++ " as " ++ call.call_id]
  let closeCond := if optStrTruthy call.conditional then
      [⟨indent.data.dropLast.dropLast⟩ ++ "\x7d"] else []
  let closeScatter := if optStrTruthy call.scatter then ["  \x7d"] else []
  [""] ++ scatterLines ++ condLines ++ callLines ++ closeCond ++ closeScatter

/-- `Workflow.to_wdl_workflow`, state-passing. -/
def to_wdl_workflowS (wf : Workflow) : Except PyErr (String × Workflow) := do
  let lines : List String := wf.imports.map (fun imp => "import \"" ++ imp ++ "\"")
  let lines := if !wf.imports.isEmpty then lines ++ [""] else lines
  let lines := lines ++ ["workflow " ++ wf.name ++ " \x7b"]
  let lines := if optStrTruthy wf.description then
      lines ++ ["  meta \x7b", "    description: \"" ++ wf.description.getD "" ++ "\"", "  \x7d"]
    else lines
  let (inLines, inputs2) ← threadE Input.to_wdlS wf.inputs
  let lines := if !wf.inputs.isEmpty then
      lines ++ ["  input \x7b"] ++ inLines.map (fun s => "    " ++ s) ++ ["  \x7d"]
    else lines
  let lines := lines ++ (wf.calls.map wdlCallLines).flatten
  let (outLines, outputs2) ← threadE Output.to_wdlS wf.outputs
  let lines := if !wf.outputs.isEmpty then
      lines ++ ["", "  output \x7b"] ++ outLines.map (fun s => "    " ++ s) ++ ["  \x7d"]
    else lines
  let lines := lines ++ ["\x7d"]
  return ("\n".intercalate lines, { wf with inputs := inputs2, outputs := outputs2 })

/-- `Workflow.to_wdl_workflow`. -/
def to_wdl_workflow (wf : Workflow) : Except PyErr String := (wf.to_wdl_workflowS).map (·.1)

end Workflow

/-! ## CWL parser (`parsers/cwl_parser.py`) -/

/-- Union result/argument type `Union[Workflow, Task]` used by the parsers,
writers and converter. -/
inductive Element where
  | workflow (w : Workflow)
  | task (t : Task)

/-- Is this element a `Workflow`? (`isinstance(element, Workflow)`). -/
def Element.isWorkflow : Element → Bool
  | .workflow _ => true
  | .task _ => false

/-- Models Python `v == "s"` for a possibly non-string value (equality
with a string is `False` for any other type). -/
def JVal.eqStr : JVal → String → Bool
  | .str s, t => s = t
  | _, _ => false

mutual

/-- Structural size of a `JVal`, used as recursion fuel for the CWL type
parser. -/
def JVal.size : JVal → Nat
  | .str _ => 1
  | .int _ => 1
  | .bool _ => 1
  | .null => 1
  | .list xs => 1 + JVal.sizeList xs
  | .dict kvs => 1 + JVal.sizePairs kvs

def JVal.sizeList : List JVal → Nat
  | [] => 0
  | x :: xs => JVal.size x + JVal.sizeList xs

def JVal.sizePairs : List (String × JVal) → Nat
  | [] => 0
  | (_, v) :: xs => JVal.size v + JVal.sizePairs xs

end

/-- A Python `for` loop appending one parsed element per item, with early
exit on exception. -/
def mapME {α β : Type} (f : α → Except PyErr β) : List α → Except PyErr (List β)
  | [] => .ok []
  | x :: xs => do
    let y ← f x
    let ys ← mapME f xs
    return y :: ys

/-- A Python `for` loop threading mutable state, with early exit on
exception. -/
def foldME {σ α : Type} (f : σ → α → Except PyErr σ) : σ → List α → Except PyErr σ
  | s, [] => .ok s
  | s, x :: xs => do
    let s2 ← f s x
    foldME f s2 xs

/-- A value expected to be a `str` (pydantic string field validation). -/
def expectStr : JVal → Except PyErr String
  | .str s => .ok s
  | _ => .error (.validationError "str expected")

/-- A value expected to be an `int` (pydantic int field validation). -/
def expectInt : JVal → Except PyErr Int
  | .int n => .ok n
  | _ => .error (.validationError "int expected")

/-- A value expected to be a mapping (anything else raises
`AttributeError` at `.items()` / `.get`). -/
def expectDict : JVal → Except PyErr (List (String × JVal))
  | .dict kvs => .ok kvs
  | _ => .error (.attributeError "object has no attribute items")

/-- A value expected to be a list (anything else raises `TypeError` when
iterated or concatenated). -/
def expectList : JVal → Except PyErr (List JVal)
  | .list xs => .ok xs
  | _ => .error (.typeError "object is not iterable")

namespace CWLParser

/-- Is a union-member `'null'` (the comparison `t != 'null'` /
`'null' in cwl_type` on list elements)? -/
def isNullStr : JVal → Bool
  | .str s => s = "null"
  | _ => false

/-- `CWLParser._parse_simple_type`: the CWL-name-to-`DataType` table with a
`STRING` default for unknown names. -/
def parse_simple_type (type_str : String) : TypeSpec :=
  let base_type :=
    if type_str = "string" then DataType.STRING
    else if type_str = "int" then DataType.INT
    else if type_str = "long" then DataType.INT
    else if type_str = "float" then DataType.FLOAT
    else if type_str = "double" then DataType.FLOAT
    else if type_str = "boolean" then DataType.BOOLEAN
    else if type_str = "File" then DataType.FILE
    else if type_str = "Directory" then DataType.DIRECTORY
    else DataType.STRING
  TypeSpec.simple base_type

/-- In-place mutation `type_spec.optional = optional` on a fresh object. -/
def setOptional : TypeSpec → Bool → TypeSpec
  | .mk b i k v _, opt => .mk b i k v opt

/-- `CWLParser._parse_cwl_type` (fuelled by the structural size of the
value, which dominates the recursion depth; Python's own recursion limit
plays the role of fuel exhaustion): strings map through the simple-type
table; a list is a union whose `'null'` member marks optionality (a
one-member union of an unhashable value raises `TypeError` inside
`dict.get`; any other singleton falls through the table's `STRING`
default); a mapping with `type: array` recurses into `items`
(default `'string'`); everything else collapses to `STRING`. -/
def parse_cwl_typeF : Nat → JVal → Except PyErr TypeSpec
  | 0, _ => .error (.valueError "maximum recursion depth exceeded")
  | _ + 1, .str s => .ok (parse_simple_type s)
  | _ + 1, .list l =>
    let non_null_types := l.filter (fun t => !isNullStr t)
    let optional := l.any isNullStr
    if non_null_types.length = 1 then
      match non_null_types with
      | [.str s] => .ok (setOptional (parse_simple_type s) optional)
      | [.int _] | [.bool _] | [.null] => .ok (setOptional (TypeSpec.simple .STRING) optional)
      | _ => .error (.typeError "unhashable type")
    else
      .ok (TypeSpec.simple .STRING optional)
  | fuel + 1, .dict kvs =>
    if ((JVal.dictGet kvs "type").getD JVal.null).eqStr "array" then do
      let item ← parse_cwl_typeF fuel ((JVal.dictGet kvs "items").getD (JVal.str "string"))
      return TypeSpec.mk .ARRAY (some item) none none false
    else
      .ok (TypeSpec.simple .STRING)
  | _ + 1, _ => .ok (TypeSpec.simple .STRING)

/-- `CWLParser._parse_cwl_type`. -/
def parse_cwl_type (cwl_type : JVal) : Except PyErr TypeSpec :=
  parse_cwl_typeF cwl_type.size cwl_type

/-- `CWLParser._parse_input`. -/
def parse_input (input_id : String) (input_def : List (String × JVal)) :
    Except PyErr Input := do
  let type_spec ← parse_cwl_type ((JVal.dictGet input_def "type").getD JVal.null)
  let doc ← expectStr ((JVal.dictGet input_def "doc").getD (JVal.str ""))
  return { name := input_id
           type_spec := type_spec
           description := some doc
           default := JVal.dictGet input_def "default"
           optional := strContains (JVal.pyStr ((JVal.dictGet input_def "type").getD (JVal.str ""))) "null" }

/-- `CWLParser._parse_output`. -/
def parse_output (output_id : String) (output_def : List (String × JVal)) :
    Except PyErr Output := do
  let output_binding := (JVal.dictGet output_def "outputBinding").getD (JVal.dict [])
  let expression ←
    if output_binding.truthy then
      match output_binding with
      | .dict bkvs =>
        match JVal.dictGet bkvs "glob" with
        | none => pure (none : Option String)
        | some g => (expectStr g).map some
      | _ => .error (.attributeError "object has no attribute get")
    else pure none
  let type_spec ← parse_cwl_type ((JVal.dictGet output_def "type").getD JVal.null)
  let doc ← expectStr ((JVal.dictGet output_def "doc").getD (JVal.str ""))
  return { name := output_id
           type_spec := type_spec
           description := some doc
           expression := expression }

/-- `CWLParser._parse_requirements`: scan the requirement list for
`DockerRequirement` (`dockerPull` to `docker`) and `ResourceRequirement`
(`coresMin`/`ramMin`/`outdirMin` to `cpu`/`memory`/`disk`, the latter two
suffixed with `M`). -/
def parse_requirements_step (runtime : Runtime) (req : JVal) : Except PyErr Runtime := do
  let reqD ← expectDict req
  let req_class := (JVal.dictGet reqD "class").getD (JVal.str "")
  if req_class.eqStr "DockerRequirement" then
    let d ← expectStr ((JVal.dictGet reqD "dockerPull").getD (JVal.str ""))
    return { runtime with docker := some d }
  else if req_class.eqStr "ResourceRequirement" then
    let runtime ←
      if JVal.dictHas reqD "coresMin" then do
        let c ← expectInt ((JVal.dictGet reqD "coresMin").getD JVal.null)
        pure { runtime with cpu := some c }
      else pure runtime
    let runtime :=
      if JVal.dictHas reqD "ramMin" then
        { runtime with
          memory := some (JVal.pyStr ((JVal.dictGet reqD "ramMin").getD JVal.null) ++ "M") }
      else runtime
    let runtime :=
      if JVal.dictHas reqD "outdirMin" then
        { runtime with
          disk := some (JVal.pyStr ((JVal.dictGet reqD "outdirMin").getD JVal.null) ++ "M") }
      else runtime
    return runtime
  else
    return runtime

/-- `CWLParser._parse_requirements` (the loop over the requirement list). -/
def parse_requirements (requirements : List JVal) : Except PyErr Runtime :=
  foldME parse_requirements_step {} requirements

/-- Parse one `inputs`/`outputs` entry of a tool or workflow document. -/
def parseInputEntry (input_id : String) (input_def : JVal) : Except PyErr Input := do
  match input_def with
  | .dict kvs => parse_input input_id kvs
  | _ => do
    let ts ← parse_cwl_type input_def
    return { name := input_id, type_spec := ts }

/-- Parse one `outputs` entry. -/
def parseOutputEntry (output_id : String) (output_def : JVal) : Except PyErr Output := do
  match output_def with
  | .dict kvs => parse_output output_id kvs
  | _ => do
    let ts ← parse_cwl_type output_def
    return { name := output_id, type_spec := ts }

/-- `CWLParser._parse_command_line_tool`. -/
def parse_command_line_tool (tool_doc : List (String × JVal)) : Except PyErr Task := do
  let name ← expectStr ((JVal.dictGet tool_doc "id").getD (JVal.str "unnamed_tool"))
  let doc ← expectStr ((JVal.dictGet tool_doc "doc").getD (JVal.str ""))
  let inputsD ← expectDict ((JVal.dictGet tool_doc "inputs").getD (JVal.dict []))
  let inputs ← mapME (fun entry => parseInputEntry entry.1 entry.2) inputsD
  let outputsD ← expectDict ((JVal.dictGet tool_doc "outputs").getD (JVal.dict []))
  let outputs ← mapME (fun entry => parseOutputEntry entry.1 entry.2) outputsD
  let base_command := (JVal.dictGet tool_doc "baseCommand").getD (JVal.list [])
  let base_command ←
    match base_command with
    | .str s => pure [JVal.str s]
    | .list l => pure l
    | _ => .error (.typeError "can only concatenate list")
  let arguments ← expectList ((JVal.dictGet tool_doc "arguments").getD (JVal.list []))
  let command_parts := base_command ++ arguments
  let command := " ".intercalate (command_parts.map JVal.pyStr)
  let requirementsL ← expectList ((JVal.dictGet tool_doc "requirements").getD (JVal.list []))
  let runtime ← parse_requirements requirementsL
  return { name := name
           inputs := inputs
           outputs := outputs
           command := command
           runtime := some runtime
           description := some doc }

/-- `CWLParser._parse_step_inputs`: every string value has `/` replaced by
`.`; every other value is stringified. -/
def parse_step_inputs (step_inputs : List (String × JVal)) : List (String × JVal) :=
  step_inputs.foldl (fun acc kv =>
    match kv.2 with
    | .str v => JVal.dictSet acc kv.1 (JVal.str (replaceChar '/' '.' v))
    | v => JVal.dictSet acc kv.1 (JVal.str (JVal.pyStr v))) []

/-- `CWLParser._parse_workflow`.  The sources import only `Workflow, Task,
Input, Output, Runtime` from `..ir` (line 7), so the name `WorkflowCall`
used at line 129 is unbound: processing any step raises `NameError` right
after the step's `run` handling (Python resolves the callee before
evaluating its arguments). -/
def parse_workflow_step (workflow : Workflow) (entry : String × JVal) :
    Except PyErr Workflow := do
  let step_id := entry.1
  let step_def ← expectDict entry.2
  let workflow ←
    if (JVal.dictHas step_def "run") then
      match JVal.dictGet step_def "run" with
      | some (.dict run_doc) => do
        let task ← parse_command_line_tool run_doc
        pure (workflow.add_task { task with name := step_id })
      | some runVal => do
        let _ ← expectStr runVal  -- `.lstrip('#')` on a non-string raises
        pure workflow
      | none => pure workflow
    else
      pure workflow
  let _ := workflow
  -- `WorkflowCall(...)` at cwl_parser.py:129: the name is not imported.
  throw (.nameError "WorkflowCall")

/-- `CWLParser._parse_workflow` (see `parse_workflow_step` for the step
loop's body and the `NameError`). -/
def parse_workflow (wf_doc : List (String × JVal)) : Except PyErr Workflow := do
  let name ← expectStr ((JVal.dictGet wf_doc "id").getD (JVal.str "unnamed_workflow"))
  let doc ← expectStr ((JVal.dictGet wf_doc "doc").getD (JVal.str ""))
  let workflow : Workflow := { name := name, description := some doc }
  let inputsD ← expectDict ((JVal.dictGet wf_doc "inputs").getD (JVal.dict []))
  let inputs ← mapME (fun entry => parseInputEntry entry.1 entry.2) inputsD
  let workflow := { workflow with inputs := inputs }
  let outputsD ← expectDict ((JVal.dictGet wf_doc "outputs").getD (JVal.dict []))
  let outputs ← mapME (fun entry => parseOutputEntry entry.1 entry.2) outputsD
  let workflow := { workflow with outputs := outputs }
  let stepsD ← expectDict ((JVal.dictGet wf_doc "steps").getD (JVal.dict []))
  foldME parse_workflow_step workflow stepsD

/-- `CWLParser.parse_dict`: dispatch on the `class` discriminator;
anything but `CommandLineTool` / `Workflow` raises `ValueError`. -/
def parse_dict (cwl_doc : List (String × JVal)) : Except PyErr Element := do
  let cwl_class := (JVal.dictGet cwl_doc "class").getD (JVal.str "")
  if cwl_class.eqStr "CommandLineTool" then
    (parse_command_line_tool cwl_doc).map Element.task
  else if cwl_class.eqStr "Workflow" then
    (parse_workflow cwl_doc).map Element.workflow
  else
    .error (.valueError ("Unknown CWL class: " ++ JVal.pyStr cwl_class))

end CWLParser
/-! ## WDL parser (`parsers/wdl_parser.py`, the regex-based path actually
executed by `parse_string`) -/

namespace WDLParser

/-- Pattern `import\s+"([^"]+)"`. -/
def importPat : Regex :=
  Regex.rseq [Regex.rstr "import", Regex.wsP, .lit '"',
    .grp 1 (Regex.rplus true (.cls true [.ch '"'])), .lit '"']

/-- The block-body subpattern `([^\x7d]+(?:\x7b[^\x7d]*\x7d[^\x7d]*)*)` of
the task/workflow patterns. -/
def blockBody : Regex :=
  .seq (Regex.rplus true (.cls true [.ch '}']))
    (.star true (Regex.rseq [.lit '{', .star true (.cls true [.ch '}']), .lit '}',
      .star true (.cls true [.ch '}'])]))

/-- Pattern `task\s+(\w+)\s*\x7b<blockBody>\x7d` (used with `re.DOTALL`). -/
def taskPat : Regex :=
  Regex.rseq [Regex.rstr "task", Regex.wsP, .grp 1 Regex.wordP,
    Regex.wsS, .lit '{', .grp 2 blockBody, .lit '}']

/-- Pattern `workflow\s+(\w+)\s*\x7b<blockBody>\x7d` (with `re.DOTALL`). -/
def workflowPat : Regex :=
  Regex.rseq [Regex.rstr "workflow", Regex.wsP, .grp 1 Regex.wordP,
    Regex.wsS, .lit '{', .grp 2 blockBody, .lit '}']

/-- Pattern `<kw>\s*\x7b([^\x7d]+)\x7d` for the `input`, `runtime` and
`output` sections. -/
def sectionPat (kw : String) : Regex :=
  Regex.rseq [Regex.rstr kw, Regex.wsS, .lit '{',
    .grp 1 (Regex.rplus true (.cls true [.ch '}'])), .lit '}']

/-- Pattern `command\s*<<<(.+?)>>>` (with `re.DOTALL`). -/
def commandHeredocPat : Regex :=
  Regex.rseq [Regex.rstr "command", Regex.wsS, Regex.rstr "<<<",
    .grp 1 (Regex.rplus false (.dot true)), Regex.rstr ">>>"]

/-- Pattern `command\s*\x7b(.+?)\x7d` (with `re.DOTALL`). -/
def commandBracePat : Regex :=
  Regex.rseq [Regex.rstr "command", Regex.wsS, .lit '{',
    .grp 1 (Regex.rplus false (.dot true)), .lit '}']

/-- The declaration pattern
`(\w+(?:\[[^\]]+\])?(?:\?)?)\s+(\w+)(?:\s*=\s*(.+?))?(?:\n|$)`
(no `re.DOTALL`, so `.` excludes newlines). -/
def declPat : Regex :=
  Regex.rseq [
    .grp 1 (Regex.rseq [Regex.wordP,
      Regex.ropt true (Regex.rseq [.lit '[', Regex.rplus true (.cls true [.ch ']']), .lit ']']),
      Regex.ropt true (.lit '?')]),
    Regex.wsP, .grp 2 Regex.wordP,
    Regex.ropt true (Regex.rseq [Regex.wsS, .lit '=', Regex.wsS,
      .grp 3 (Regex.rplus false (.dot false))]),
    .alt (.lit '\n') .eos]

/-- The runtime attribute pattern `(\w+)\s*:\s*"?([^"\n]+)"?`. -/
def runtimeAttrPat : Regex :=
  Regex.rseq [.grp 1 Regex.wordP, Regex.wsS, .lit ':', Regex.wsS,
    Regex.ropt true (.lit '"'), .grp 2 (Regex.rplus true (.cls true [.ch '"', .ch '\n'])),
    Regex.ropt true (.lit '"')]

/-- The call pattern `call\s+(\w+)(?:\s+as\s+(\w+))?\s*(?:\x7b([^\x7d]+)\x7d)?`. -/
def callPat : Regex :=
  Regex.rseq [Regex.rstr "call", Regex.wsP, .grp 1 Regex.wordP,
    Regex.ropt true (Regex.rseq [Regex.wsP, Regex.rstr "as", Regex.wsP, .grp 2 Regex.wordP]),
    Regex.wsS,
    Regex.ropt true (Regex.rseq [.lit '{', .grp 3 (Regex.rplus true (.cls true [.ch '}'])), .lit '}'])]

/-- Pattern `input\s*:(.+)` (with `re.DOTALL`) locating a call's `input:`
section. -/
def callInputPat : Regex :=
  Regex.rseq [Regex.rstr "input", Regex.wsS, .lit ':',
    .grp 1 (Regex.rplus true (.dot true))]

/-- The call input binding pattern `(\w+)\s*=\s*([^,\n]+)`. -/
def callKVPat : Regex :=
  Regex.rseq [.grp 1 Regex.wordP, Regex.wsS, .lit '=', Regex.wsS,
    .grp 2 (Regex.rplus true (.cls true [.ch ',', .ch '\n']))]

/-- The disk size pattern `(\d+\s*\w+)` used for the `disks` runtime key. -/
def diskSizePat : Regex :=
  .grp 1 (Regex.rseq [Regex.rplus true (.cls false [.digit]), Regex.wsS, Regex.wordP])

/-- `WDLParser._parse_type`, fuelled by the string length (each `Array[...]`
recursion strips seven characters). -/
def parse_typeF : Nat → String → TypeSpec
  | 0, _ => TypeSpec.simple .STRING
  | fuel + 1, type_str =>
    let l := type_str.data
    let optional := l.getLast? = some '?'   -- `type_str.endswith("?")`
    let t : List Char := if optional then l.dropLast else l
    if ("Array[".data).isPrefixOf t then    -- `type_str.startswith("Array[")`
      let item_type := parse_typeF fuel ⟨(t.drop 6).dropLast⟩  -- `type_str[6:-1]`
      TypeSpec.mk .ARRAY (some item_type) none none optional
    else
      let base_type :=
        if t = "String".data then DataType.STRING
        else if t = "Int".data then DataType.INT
        else if t = "Float".data then DataType.FLOAT
        else if t = "Boolean".data then DataType.BOOLEAN
        else if t = "File".data then DataType.FILE
        else DataType.STRING
      TypeSpec.simple base_type optional

/-- `WDLParser._parse_type`. -/
def parse_type (type_str : String) : TypeSpec :=
  parse_typeF (type_str.length + 1) type_str

/-- `WDLParser._parse_declarations`. -/
def parse_declarations (text : String) : List Input :=
  (reFindIter declPat text.data).map (fun m =>
    let type_str := (m.group text.data 1).getD ""
    let name := (m.group text.data 2).getD ""
    let type_spec := parse_type type_str
    { name := name
      type_spec := type_spec
      default := (m.group text.data 3).map (fun d => JVal.str (pyStrip d))
      optional := type_spec.optional })

/-- `WDLParser._parse_output_declarations`. -/
def parse_output_declarations (text : String) : List Output :=
  (reFindIter declPat text.data).map (fun m =>
    let type_str := (m.group text.data 1).getD ""
    let name := (m.group text.data 2).getD ""
    let type_spec := parse_type type_str
    { name := name
      type_spec := type_spec
      expression := (m.group text.data 3).map pyStrip })

/-- `WDLParser._parse_runtime`: `key: value` pairs mapped onto `Runtime`
fields by recognised key name, with unknown keys collected into
`custom_attributes`; `int()` conversions may raise `ValueError`. -/
def parse_runtime_step (text : String) (runtime : Runtime) (m : RMatch) :
    Except PyErr Runtime := do
  let key := (m.group text.data 1).getD ""
  let value := pyStrip ((m.group text.data 2).getD "")
  if key = "cpu" then
    match pyIntOfString value with
    | some n => return { runtime with cpu := some n }
    | none => throw (.valueError "invalid literal for int()")
  else if key = "memory" then
    return { runtime with memory := some value }
  else if key = "docker" then
    return { runtime with docker := some value }
  else if key = "disks" then
    match reSearch diskSizePat value.data with
    | some dm =>
      return { runtime with
        disk := some (removeChar ' ' ((dm.group value.data 1).getD "")) }
    | none => return runtime
  else if key = "preemptible" then
    match pyIntOfString value with
    | some n => return { runtime with preemptible := some n }
    | none => throw (.valueError "invalid literal for int()")
  else if key = "maxRetries" then
    match pyIntOfString value with
    | some n => return { runtime with maxRetries := some n }
    | none => throw (.valueError "invalid literal for int()")
  else
    return { runtime with
      custom_attributes := JVal.dictSet runtime.custom_attributes key (JVal.str value) }

/-- `WDLParser._parse_runtime` (the loop over attribute matches). -/
def parse_runtime (text : String) : Except PyErr Runtime :=
  foldME (parse_runtime_step text) {} (reFindIter runtimeAttrPat text.data)

/-- `WDLParser._parse_call_inputs`. -/
def parse_call_inputs (text : String) : List (String × JVal) :=
  if pyStrip text = "" then []
  else
    let text := match reSearch callInputPat text.data with
      | some m => (m.group text.data 1).getD ""
      | none => text
    (reFindIter callKVPat text.data).foldl (fun acc m =>
      let key := (m.group text.data 1).getD ""
      let value := pyStrip ((m.group text.data 2).getD "")
      JVal.dictSet acc key (JVal.str value)) []

/-- `WDLParser._parse_task`. -/
def parse_task (name : String) (body : String) : Except PyErr Task := do
  let task : Task := { name := name, command := "" }
  let task :=
    match reSearch (sectionPat "input") body.data with
    | some m => { task with inputs := parse_declarations ((m.group body.data 1).getD "") }
    | none => task
  let command_match :=
    match reSearch commandHeredocPat body.data with
    | some m => some m
    | none => reSearch commandBracePat body.data
  let task :=
    match command_match with
    | some m => { task with command := pyStrip ((m.group body.data 1).getD "") }
    | none => task
  let task ←
    match reSearch (sectionPat "runtime") body.data with
    | some m => do
      let rt ← parse_runtime ((m.group body.data 1).getD "")
      pure { task with runtime := some rt }
    | none => pure task
  let task :=
    match reSearch (sectionPat "output") body.data with
    | some m =>
      { task with outputs := parse_output_declarations ((m.group body.data 1).getD "") }
    | none => task
  return task

/-- `WDLParser._parse_workflow`: the regex-based workflow parser extracts
the input section, the `call` statements (alias defaulting to the task
name) and the output section; it contains no handling for `scatter` or
`if` blocks. -/
def parse_workflow (name : String) (body : String) (tasks : List (String × Task)) :
    Workflow :=
  let workflow : Workflow := { name := name, tasks := tasks }
  let workflow :=
    match reSearch (sectionPat "input") body.data with
    | some m => { workflow with inputs := parse_declarations ((m.group body.data 1).getD "") }
    | none => workflow
  let workflow := (reFindIter callPat body.data).foldl (fun wf m =>
    let task_name := (m.group body.data 1).getD ""
    let aliasName := (m.group body.data 2).getD task_name
    let call_body := (m.group body.data 3).getD ""
    wf.add_call { call_id := aliasName
                  task_name := task_name
                  inputs := parse_call_inputs call_body }) workflow
  match reSearch (sectionPat "output") body.data with
  | some m =>
    { workflow with outputs := parse_output_declarations ((m.group body.data 1).getD "") }
  | none => workflow

/-- `WDLParser.parse_string` (the extracted `version` header is unused by
the Python code and therefore not modelled): collect imports, parse every
`task` block, then either parse the `workflow` block (attaching imports)
or wrap the bare tasks in a `Workflow` named after the source stem. -/
def parse_string (content : String) (source_name : String := "string") :
    Except PyErr Workflow := do
  let imports := reFindAll1 importPat content.data
  let tasks ← foldME (fun tasks (m : RMatch) => do
      let task_name := (m.group content.data 1).getD ""
      let task_body := (m.group content.data 2).getD ""
      let task ← parse_task task_name task_body
      pure (if (tasks.find? (fun (kv : String × Task) => kv.1 = task_name)).isSome then
          tasks.map (fun kv => if kv.1 = task_name then (task_name, task) else kv)
        else tasks ++ [(task_name, task)]))
    [] (reFindIter taskPat content.data)
  match reSearch workflowPat content.data with
  | some m => do
    let workflow_name := (m.group content.data 1).getD ""
    let workflow_body := (m.group content.data 2).getD ""
    let workflow := parse_workflow workflow_name workflow_body tasks
    return { workflow with imports := imports }
  | none =>
    return { name := pathStem source_name, tasks := tasks }

end WDLParser
/-! ## Writers (`writers/cwl_writer.py`, `writers/wdl_writer.py`) -/

namespace CWLWriter

/-- `CWLWriter._workflow_to_cwl`, state-passing: embed the tasks in a
`$graph` document (main workflow renamed `main`, one tool per task) when
the workflow owns tasks, else return the plain workflow mapping. -/
def workflow_to_cwlS (wf : Workflow) : Except PyErr (JVal × Workflow) := do
  let (wf_dict, wf2) ← wf.to_cwl_workflowS
  if !wf.tasks.isEmpty then do
    let wfkvs ← expectDict wf_dict
    let main_wf := JVal.dictSet wfkvs "id" (JVal.str "main")
    let (tools, tasks2) ← threadE (fun (kv : String × Task) => do
        let (tool, t2) ← kv.2.to_cwl_toolS
        let toolkvs ← expectDict tool
        pure (JVal.dict (JVal.dictSet toolkvs "id" (JVal.str kv.2.name)), (kv.1, t2)))
      wf.tasks
    -- the subsequent step-`run` fixup loop in the source is a no-op
    return (JVal.dict [("$graph", JVal.list (JVal.dict main_wf :: tools))],
      { wf2 with tasks := tasks2 })
  else
    return (wf_dict, wf2)

/-- `CWLWriter.write` / `_element_to_cwl`, state-passing: stamp
`cwlVersion: v1.2` and merge in the element's mapping.  The ruamel-YAML
serialisation of the finished mapping is outside the model: `write`
returns the document value whose dump is the emitted text. -/
def writeS (element : Element) : Except PyErr (JVal × Element) := do
  match element with
  | .task t => do
    let (tool, t2) ← t.to_cwl_toolS
    let toolkvs ← expectDict tool
    let cwl_dict := toolkvs.foldl (fun acc kv => JVal.dictSet acc kv.1 kv.2)
      [("cwlVersion", JVal.str "v1.2")]
    return (JVal.dict cwl_dict, .task t2)
  | .workflow wf => do
    let (doc, wf2) ← workflow_to_cwlS wf
    let dockvs ← expectDict doc
    let cwl_dict := dockvs.foldl (fun acc kv => JVal.dictSet acc kv.1 kv.2)
      [("cwlVersion", JVal.str "v1.2")]
    return (JVal.dict cwl_dict, .workflow wf2)

/-- `CWLWriter.write` (document value only). -/
def write (element : Element) : Except PyErr JVal := (writeS element).map (·.1)

end CWLWriter

namespace WDLWriter

/-- `WDLWriter._workflow_to_wdl_lines`, state-passing. -/
def workflow_to_wdl_linesS (wf : Workflow) : Except PyErr (List String × Workflow) := do
  let lines := wf.imports.map (fun imp => "import \"" ++ imp ++ "\"")
  let lines := if !wf.imports.isEmpty then lines ++ [""] else lines
  let (taskLines, tasks2) ← threadE (fun (kv : String × Task) => do
      let (s, t2) ← kv.2.to_wdl_taskS
      pure ([s, ""], (kv.1, t2))) wf.tasks
  let lines := lines ++ taskLines.flatten
  let (wfStr, wf2) ← wf.to_wdl_workflowS
  return (lines ++ [wfStr], { wf2 with tasks := tasks2 })

/-- `WDLWriter.write`, state-passing (writer version header `1.0` by
default). -/
def writeS (element : Element) (version : String := "1.0") :
    Except PyErr (String × Element) := do
  let lines := ["version " ++ version, ""]
  match element with
  | .task t => do
    let (s, t2) ← t.to_wdl_taskS
    return ("\n".intercalate (lines ++ [s]), .task t2)
  | .workflow wf => do
    let (wfLines, wf2) ← workflow_to_wdl_linesS wf
    return ("\n".intercalate (lines ++ wfLines), .workflow wf2)

/-- `WDLWriter.write`. -/
def write (element : Element) : Except PyErr String := (writeS element).map (·.1)

end WDLWriter

/-! ## Graph analysis (`utils/graph.py`) and the networkx algorithms it
calls -/

/-- The networkx exception classes involved in `get_execution_order`,
modelled from the networkx (>= 3.0, per `setup.py`) class hierarchy:
`NetworkXError` and `NetworkXUnfeasible` are distinct branches under
`NetworkXException` (`NetworkXUnfeasible` subclasses
`NetworkXAlgorithmError`, not `NetworkXError`), so an
`except NetworkXError` clause does not catch `NetworkXUnfeasible`. -/
inductive NxExc where
  | networkXError
  | networkXUnfeasible
deriving DecidableEq, Repr

/-- Modelled from the networkx documentation: `topological_sort` (Kahn's
algorithm) repeatedly yields a remaining node of in-degree zero and raises
`NetworkXUnfeasible` when none exists while nodes remain (i.e. the graph
contains a cycle). -/
def topoGo : Nat → NxDiGraph → Except NxExc (List String)
  | 0, g => if g.nodes.isEmpty then .ok [] else .error .networkXUnfeasible
  | fuel + 1, g =>
    if g.nodes.isEmpty then .ok []
    else
      match g.nodes.find? (fun n => g.indeg n = 0) with
      | none => .error .networkXUnfeasible
      | some n =>
        let g2 : NxDiGraph :=
          { nodes := g.nodes.filter (fun m => m ≠ n)
            edges := g.edges.filter (fun e => e.1 ≠ n) }
        (topoGo fuel g2).map (n :: ·)

/-- Modelled from the networkx documentation: `nx.topological_sort`. -/
def topological_sort (g : NxDiGraph) : Except NxExc (List String) :=
  topoGo (g.nodes.length + 1) g

/-- Depth-first search for elementary cycles rooted at `root`, visiting
only nodes at or after `root` in node order and never revisiting a node on
the current path (helper for the `simple_cycles` model). -/
def cyclesDFS (g : NxDiGraph) (root : String) : Nat → String → List String → List (List String)
  | 0, _, _ => []
  | fuel + 1, cur, path =>
    (g.succ cur).flatMap (fun nxt =>
      if nxt = root then [path.reverse]
      else if path.contains nxt then []
      else if g.nodes.indexOf nxt < g.nodes.indexOf root then []
      else cyclesDFS g root fuel nxt (nxt :: path))

/-- Modelled from the networkx documentation: `nx.simple_cycles` yields
every elementary cycle of the directed graph exactly once (Johnson's
algorithm); here each cycle is reported rooted at its earliest node in
node order. -/
def simple_cycles (g : NxDiGraph) : List (List String) :=
  (List.range g.nodes.length).flatMap (fun i =>
    match g.nodes.get? i with
    | none => []
    | some root => cyclesDFS g root (g.nodes.length + 1) root [root])

namespace WorkflowGraphAnalyzer

/-- `WorkflowGraphAnalyzer.get_execution_order`: wraps
`list(nx.topological_sort(...))` in `try/except nx.NetworkXError`,
returning `[]` on that exception class only; any other exception
propagates. -/
def get_execution_order (workflow : Workflow) : Except NxExc (List String) :=
  match topological_sort workflow.get_dependency_graph with
  | .ok l => .ok l
  | .error .networkXError => .ok []
  | .error e => .error e

/-- `WorkflowGraphAnalyzer.find_cycles`. -/
def find_cycles (workflow : Workflow) : List (List String) :=
  simple_cycles workflow.get_dependency_graph

end WorkflowGraphAnalyzer

/-! ## Validator (`utils/validator.py`) -/

/-- `ValidationError` findings (level, message, location); the literal
quote characters Python's f-strings place around interpolated names are
omitted from the message texts. -/
structure ValidationError where
  level : String
  message : String
  location : String := ""
deriving DecidableEq, Repr

/-- The memory format pattern `^\d+[MG]?$` from
`WorkflowValidator._validate_task`. -/
def memFormatPat : Regex :=
  Regex.rseq [Regex.rplus true (.cls false [.digit]),
    Regex.ropt true (.cls false [.ch 'M', .ch 'G']), .eos]

/-- First-occurrence deduplication (the model's stand-in for Python's
`set(...)`, whose iteration order is arbitrary; nothing downstream
depends on the order). -/
def dedupFirst (l : List String) : List String :=
  l.foldl (fun acc s => if acc.contains s then acc else acc ++ [s]) []

namespace WorkflowValidator

/-- `WorkflowValidator._validate_call`: a call whose task is unknown gets a
single WARNING and no further checks; a resolved call is checked for
missing required inputs (ERROR) and unknown provided inputs (WARNING). -/
def validate_call (call : WorkflowCall) (workflow : Workflow) : List ValidationError :=
  if !(workflow.hasTask call.task_name) then
    [{ level := "WARNING"
       message := "Call " ++ call.call_id ++ " references unknown task " ++ call.task_name
       location := "call." ++ call.call_id }]
  else
    match workflow.getTask call.task_name with
    | none => []
    | some task =>
      (task.inputs.filter (fun inp =>
          !inp.optional && !(JVal.dictHas call.inputs inp.name))).map (fun inp =>
        { level := "ERROR"
          message := "Call " ++ call.call_id ++ " missing required input " ++ inp.name
          location := "call." ++ call.call_id })
      ++ (call.inputs.filter (fun kv =>
          !(task.inputs.any (fun i => i.name = kv.1)))).map (fun kv =>
        { level := "WARNING"
          message := "Call " ++ call.call_id ++ " provides unknown input " ++ kv.1
          location := "call." ++ call.call_id })

/-- `WorkflowValidator._validate_task`: missing name/command errors,
command variables referencing undeclared inputs, and a memory format
warning. -/
def validate_task_errors (task : Task) : List ValidationError :=
  (if task.name = "" then
    [{ level := "ERROR", message := "Task missing name", location := "" }] else [])
  ++ (if task.command = "" then
    [{ level := "ERROR"
       message := "Task " ++ task.name ++ " missing command"
       location := "task." ++ task.name }] else [])
  ++ ((dedupFirst (reFindAll1 cmdVarPat task.command.data)).filter (fun v =>
        !(task.inputs.any (fun i => i.name = v)))).map (fun v =>
      { level := "ERROR"
        message := "Task " ++ task.name ++ " command references unknown input " ++ v
        location := "task." ++ task.name ++ ".command" })
  ++ (match task.runtime with
      | some rt =>
        if optStrTruthy rt.memory then
          match reMatchAt memFormatPat 0 (rt.memory.getD "").data with
          | none =>
            [{ level := "WARNING"
               message := "Task " ++ task.name ++ " has invalid memory format: "
                 ++ rt.memory.getD ""
               location := "task." ++ task.name ++ ".runtime" }]
          | some _ => []
        else []
      | none => [])

/-- `WorkflowValidator.validate_workflow`: name check, per-call and
per-task checks, cycle errors, unused-input warnings and dangling output
references; overall validity is the absence of ERROR findings. -/
def validate_workflow (workflow : Workflow) : Bool × List ValidationError :=
  let errors : List ValidationError :=
    if workflow.name = "" then
      [{ level := "ERROR", message := "Workflow missing name", location := "" }] else []
  let errors := errors ++ workflow.calls.flatMap (fun c => validate_call c workflow)
  let errors := errors ++ workflow.tasks.flatMap (fun kv => validate_task_errors kv.2)
  let cycles := simple_cycles workflow.get_dependency_graph
  let errors := errors ++ cycles.map (fun cycle =>
    { level := "ERROR"
      message := "Circular dependency detected: " ++ " -> ".intercalate cycle
      location := "" })
  let used_inputs := workflow.calls.flatMap (fun c =>
    c.inputs.filterMap (fun kv =>
      match kv.2 with
      | .str v => if !strContains v "." then some v else none
      | _ => none))
  let errors := errors ++ (workflow.inputs.filter (fun inp =>
      !(used_inputs.contains inp.name))).map (fun inp =>
    { level := "WARNING"
      message := "Input " ++ inp.name ++ " is not used by any call"
      location := "workflow.inputs" })
  let errors := errors ++ workflow.outputs.filterMap (fun out =>
    match out.expression with
    | some e =>
      if e ≠ "" && strContains e "." then
        let call_ref := (pySplitChar '.' e).headD ""
        if !(workflow.calls.any (fun c => c.call_id = call_ref)) then
          some { level := "ERROR"
                 message := "Output " ++ out.name ++ " references unknown call " ++ call_ref
                 location := "workflow.outputs" }
        else none
      else none
    | none => none)
  let has_errors := errors.any (fun e => e.level = "ERROR")
  (!has_errors, errors)

end WorkflowValidator

/-! ## Converter (`converters/wdl_to_cwl.py`) -/

namespace WDLToCWLConverter

/-- `WDLToCWLConverter.validate_conversion`: a Workflow must have a name
and every call must resolve within its own task set; a Task must have a
name and a non-empty command. -/
def validate_conversion (element : Element) : Bool :=
  match element with
  | .workflow wf =>
    if wf.name = "" then false
    else wf.calls.all (fun c => wf.hasTask c.task_name)
  | .task t =>
    if t.name = "" then false
    else t.command ≠ ""

end WDLToCWLConverter
/-! ## Concrete documents, domains and observers used by the theorems -/

/-- The successful result of a parse, if any. -/
def okValue {α : Type} : Except PyErr α → Option α
  | .ok a => some a
  | .error _ => none

/-- Render-then-parse through Language B's structural type syntax
(`TypeSpec.to_cwl_type` then `CWLParser._parse_cwl_type`). -/
def cwlRoundTrip (t : TypeSpec) : Option TypeSpec :=
  match t.to_cwl_type with
  | some v =>
    match CWLParser.parse_cwl_type v with
    | .ok t2 => some t2
    | .error _ => none
  | none => none

/-- Render-then-parse through Language A's textual type syntax
(`TypeSpec.to_wdl_string` then `WDLParser._parse_type`). -/
def wdlRoundTrip (t : TypeSpec) : Option TypeSpec :=
  (t.to_wdl_string).map WDLParser.parse_type

/-- Does `DIRECTORY` occur anywhere in the type? -/
def mentionsDirectory : TypeSpec → Bool
  | .mk b i k v _ =>
    b = .DIRECTORY
    || (match i with | some t => mentionsDirectory t | none => false)
    || (match k with | some t => mentionsDirectory t | none => false)
    || (match v with | some t => mentionsDirectory t | none => false)

/-- The six primitive base types named by claim C1. -/
def C1prims : List DataType := [.STRING, .INT, .FLOAT, .BOOLEAN, .FILE, .DIRECTORY]

/-- Claim C1's domain: the six primitives, possibly optional, possibly
wrapped in an `ARRAY` (itself possibly optional, over a possibly optional
item). -/
def C1dom : List TypeSpec :=
  (C1prims.flatMap (fun p => [TypeSpec.simple p false, TypeSpec.simple p true]))
  ++ (C1prims.flatMap (fun p =>
      [false, true].flatMap (fun oi =>
        [false, true].map (fun oa =>
          TypeSpec.mk .ARRAY (some (TypeSpec.mk p none none none oi)) none none oa))))

/-- C1's domain minus the types whose `ARRAY` wrapper is marked optional
(the optional flag of an array is dropped by both renderers). -/
def C1domB : List TypeSpec :=
  C1dom.filter (fun t => !(t.base_type == DataType.ARRAY && t.optional))

/-- The part of `C1domB` that survives the Language-A round trip:
additionally no `DIRECTORY` (absent from `WDLParser._parse_type`'s table,
so it falls back to `STRING`). -/
def C1domA : List TypeSpec :=
  C1domB.filter (fun t => !mentionsDirectory t)

/-- A minimal Language-B `CommandLineTool` document. -/
def cltDoc : List (String × JVal) :=
  [("class", JVal.str "CommandLineTool"), ("id", JVal.str "hello"),
   ("baseCommand", JVal.str "echo"),
   ("inputs", JVal.dict [("name", JVal.str "string")]),
   ("outputs", JVal.dict [])]

/-- A Language-B `Workflow` document with one step (its `in` value uses the
`/` reference separator). -/
def c2StepDoc : List (String × JVal) :=
  [("class", JVal.str "Workflow"), ("id", JVal.str "w"),
   ("steps", JVal.dict [("s1", JVal.dict [("run", JVal.str "tool.cwl"),
      ("in", JVal.dict [("x", JVal.str "other/out")])])])]

/-- A Language-A source containing a single task and no workflow block. -/
def srcOneTask : String :=
  "task hello \x7b\n  command <<<\n    echo hi\n  >>>\n\x7d\n"

/-- A Language-A workflow whose single call is wrapped in
`scatter (file in files)`. -/
def srcScatter : String :=
  "version 1.0\n\ntask process_file \x7b\n  input \x7b\n    File input_file\n  \x7d\n"
  ++ "  command <<<\n    process ~\x7binput_file\x7d\n  >>>\n\x7d\n\n"
  ++ "workflow scatter_workflow \x7b\n  scatter (file in files) \x7b\n"
  ++ "    call process_file \x7b\n      input:\n        input_file = file\n    \x7d\n  \x7d\n\x7d\n"

/-- An IR workflow whose call carries `scatter = "file"` (what the spec
expects the parser to produce for `srcScatter`). -/
def wfScat : Workflow :=
  { name := "w"
    calls := [{ call_id := "c1", task_name := "t",
                inputs := [("x", JVal.str "files")], scatter := some "file" }] }

/-- Field `field` of step `stepId` in a rendered CWL workflow document. -/
def stepField (doc : JVal) (stepId field : String) : Option JVal :=
  match doc with
  | .dict kvs =>
    match JVal.dictGet kvs "steps" with
    | some (.dict steps) =>
      match JVal.dictGet steps stepId with
      | some (.dict step) => JVal.dictGet step field
      | _ => none
    | _ => none
  | _ => none

/-- The ten ASCII digit characters (what Python `int()` / `float()` accept
in the inputs considered here). -/
def isAsciiDigitChar (c : Char) : Bool :=
  ['0', '1', '2', '3', '4', '5', '6', '7', '8', '9'].contains c

/-- The two-call cyclic workflow of claim C7: `A` consumes `B.out` and `B`
consumes `A.out`. -/
def cycleWf : Workflow :=
  { name := "w"
    calls := [{ call_id := "A", task_name := "A", inputs := [("x", JVal.str "B.out")] },
              { call_id := "B", task_name := "B", inputs := [("y", JVal.str "A.out")] }] }

/-- The WARNING finding `_validate_call` produces for an unresolved call. -/
def unresolvedWarning (c : WorkflowCall) : ValidationError :=
  { level := "WARNING"
    message := "Call " ++ c.call_id ++ " references unknown task " ++ c.task_name
    location := "call." ++ c.call_id }

/-- A workflow with one unresolved call (for the C8 witness). -/
def c8Wf : Workflow :=
  { name := "w"
    calls := [{ call_id := "c1", task_name := "ghost", inputs := [] }] }

/-- A small well-formed task element (for the C9 witness). -/
def c9Task : Task := { name := "t", command := "echo hi" }

/-- The task body of `srcOneTask` as extracted by the task pattern (used by
the C10 witness). -/
def c10Body : String := "\n  command <<<\n    echo hi\n  >>>\n"

/-! ## Claim theorems -/

/-- C1 (counterexample): the claimed round-trip fails on the claim's own
domain.  A bare `DIRECTORY` rendered to Language A (`"Directory"`)
re-parses as `STRING` (the WDL type table has no `Directory` entry), and an
optional `ARRAY` of `FILE` loses its optional flag through both languages
(neither renderer emits the array's optionality). -/
theorem C1_type_roundtrip_counterexample :
    wdlRoundTrip (TypeSpec.simple .DIRECTORY) = some (TypeSpec.simple .STRING) ∧
    TypeSpec.simple .STRING ≠ TypeSpec.simple .DIRECTORY ∧
    cwlRoundTrip (TypeSpec.mk .ARRAY (some (TypeSpec.simple .FILE)) none none true)
      = some (TypeSpec.mk .ARRAY (some (TypeSpec.simple .FILE)) none none false) ∧
    wdlRoundTrip (TypeSpec.mk .ARRAY (some (TypeSpec.simple .FILE)) none none true)
      = some (TypeSpec.mk .ARRAY (some (TypeSpec.simple .FILE)) none none false) ∧
    TypeSpec.mk .ARRAY (some (TypeSpec.simple .FILE)) none none false
      ≠ TypeSpec.mk .ARRAY (some (TypeSpec.simple .FILE)) none none true := by
  refine ⟨rfl, ?_, rfl, rfl, ?_⟩ <;> simp [TypeSpec.simple]

/-- C1 (amended): on the claim's domain, rendering to Language B and
re-parsing is the identity whenever the `ARRAY` wrapper is not marked
optional, and rendering to Language A and re-parsing is the identity
whenever additionally no `DIRECTORY` occurs (modulo the documented
`long`/`INT` and `double`/`FLOAT` collapse, which the domain does not
exercise). -/
theorem C1_type_roundtrip_amended :
    (∀ t ∈ C1domB, cwlRoundTrip t = some t) ∧
    (∀ t ∈ C1domA, wdlRoundTrip t = some t) := by
  constructor <;> intro t ht <;> fin_cases ht <;> rfl

/-- C1 (witness): the amended theorem applied to `STRING` (Language B) and
to `FILE` (Language A). -/
theorem C1_type_roundtrip_witness :
    cwlRoundTrip (TypeSpec.simple .STRING) = some (TypeSpec.simple .STRING) ∧
    wdlRoundTrip (TypeSpec.simple .FILE) = some (TypeSpec.simple .FILE) :=
  ⟨C1_type_roundtrip_amended.1 _ (by
     simp [C1domB, C1dom, C1prims, TypeSpec.simple, TypeSpec.base_type, TypeSpec.optional]),
   C1_type_roundtrip_amended.2 _ (by
     simp [C1domA, C1domB, C1dom, C1prims, TypeSpec.simple, TypeSpec.base_type,
       TypeSpec.optional, mentionsDirectory])⟩

/-- C2: parsing a Language-B `Workflow` document with one step raises
`NameError` (the `WorkflowCall` name used at cwl_parser.py:129 is missing
from the module's imports at line 7), instead of producing the
`WorkflowCall` entry the claim describes; the `/`-to-`.` translation lives
in `_parse_step_inputs`, which that `NameError` makes unreachable. -/
theorem C2_workflow_steps_nameError :
    CWLParser.parse_dict c2StepDoc = .error (.nameError "WorkflowCall") ∧
    CWLParser.parse_step_inputs [("input_file", JVal.str "prev_step/out")]
      = [("input_file", JVal.str "prev_step.out")] :=
  ⟨rfl, rfl⟩

/-- C3 (counterexample): parsing a `CommandLineTool` document does not
return a `Workflow` — `CWLParser.parse_dict` returns the `Task` itself. -/
theorem C3_task_only_counterexample :
    (okValue (CWLParser.parse_dict cltDoc)).map Element.isWorkflow = some false := rfl

/-- C3 (amended): the Language-A parser returns a `Workflow` for a source
containing a single task and no workflow block, with exactly one `tasks`
entry and empty `calls`/`inputs`/`outputs`; the Language-B parser instead
returns the `Task` itself (here named `hello`, with a non-`None` runtime)
for a `CommandLineTool` document. -/
theorem C3_task_only_amended :
    (okValue (WDLParser.parse_string srcOneTask "hello.wdl")).map (fun wf =>
      (wf.name, wf.tasks.map Prod.fst, wf.calls.length, wf.inputs.length, wf.outputs.length))
      = some ("hello", ["hello"], 0, 0, 0) ∧
    (okValue (CWLParser.parse_dict cltDoc)).map (fun e =>
      match e with
      | .task t => some (t.name, t.runtime.isSome)
      | .workflow _ => none) = some (some ("hello", true)) :=
  ⟨rfl, rfl⟩

/-- C4: parsing the scatter workflow leaves `scatter` (and `conditional`)
unset on the resulting call — the regex-based `WDLParser._parse_workflow`
has no scatter handling, although `tests/test_wdl_to_cwl.py` (line 182)
asserts the parsed call is scattered — while the writer side of the claim
holds: a call whose `scatter` is set does get `scatter: file` and
`scatterMethod: dotproduct` on its rendered step. -/
theorem C4_scatter_not_parsed :
    (okValue (WDLParser.parse_string srcScatter "s.wdl")).map (fun wf =>
        wf.calls.map (fun c => (c.call_id, c.scatter, c.conditional)))
      = some [("process_file", none, none)] ∧
    (okValue wfScat.to_cwl_workflow).bind (fun v => stepField v "c1" "scatter")
      = some (JVal.str "file") ∧
    (okValue wfScat.to_cwl_workflow).bind (fun v => stepField v "c1" "scatterMethod")
      = some (JVal.str "dotproduct") :=
  ⟨rfl, rfl, rfl⟩

/-- C5 (counterexample): the memory normaliser has no `T` branch — a
`T`-suffixed memory string falls through to `int()` and raises
`ValueError` — while the disk normaliser does handle `T`. -/
theorem C5_memory_T_counterexample :
    Runtime.parse_memory_to_mb "2T" = none ∧
    Runtime.parse_disk_to_mb "2T" = some 2097152 :=
  ⟨rfl, rfl⟩

/-- C7: for the two-call cyclic workflow, the validator reports exactly one
ERROR finding, the circular-dependency one for cycle `A -> B`; but
`get_execution_order` does not return `[]`: `topological_sort` raises
`NetworkXUnfeasible`, which the `except nx.NetworkXError` clause does not
catch, so the exception propagates. -/
theorem C7_cycle_detection :
    (WorkflowValidator.validate_workflow cycleWf).2.filter (fun e => e.level = "ERROR")
      = [{ level := "ERROR", message := "Circular dependency detected: A -> B",
           location := "" }] ∧
    WorkflowGraphAnalyzer.find_cycles cycleWf = [["A", "B"]] ∧
    WorkflowGraphAnalyzer.get_execution_order cycleWf = .error .networkXUnfeasible :=
  ⟨rfl, rfl, rfl⟩

/-- Facts about an ASCII digit character used by the numeric parsers. -/
theorem asciiDigit_facts (c : Char) (h : isAsciiDigitChar c = true) :
    c.isDigit = true ∧ isSpaceChar c = false ∧ c ≠ '-' ∧ c ≠ '.' := by
  have h2 : c ∈ ['0', '1', '2', '3', '4', '5', '6', '7', '8', '9'] := by
    simpa [isAsciiDigitChar] using h
  fin_cases h2 <;> refine ⟨rfl, rfl, ?_, ?_⟩ <;> decide

/-- `dropWhile` is the identity when no element satisfies the predicate. -/
theorem dropWhile_eq_self_of {p : Char → Bool} :
    ∀ {l : List Char}, (∀ c ∈ l, p c = false) → l.dropWhile p = l
  | [], _ => rfl
  | c :: rest, h => by
    have hc := h c (List.mem_cons_self c rest)
    simp [List.dropWhile, hc]

/-- Stripping whitespace is the identity on whitespace-free lists. -/
theorem stripChars_eq_self {l : List Char} (h : ∀ c ∈ l, isSpaceChar c = false) :
    stripChars l = l := by
  unfold stripChars
  rw [dropWhile_eq_self_of h,
    dropWhile_eq_self_of (fun c hc => h c (List.mem_reverse.mp hc)),
    List.reverse_reverse]

/-- Splitting at a character that does not occur yields the whole list. -/
theorem splitOnChar_of_not_mem {c : Char} :
    ∀ {l : List Char}, (∀ x ∈ l, x ≠ c) → splitOnChar c l = [l]
  | [], _ => rfl
  | x :: xs, h => by
    have hx : x ≠ c := h x (List.mem_cons_self x xs)
    have ih := splitOnChar_of_not_mem (fun y hy => h y (List.mem_cons_of_mem x hy))
    simp [splitOnChar, ih, hx]

/-- The model of Python `int()` on a nonempty all-digit string. -/
theorem pyIntOfString_digits {ds : List Char} (hne : ds ≠ [])
    (hd : ∀ c ∈ ds, isAsciiDigitChar c = true) :
    pyIntOfString ⟨ds⟩ = some ((digitsToNat ds : Int)) := by
  have hstrip : stripChars ds = ds :=
    stripChars_eq_self (fun c hc => (asciiDigit_facts c (hd c hc)).2.1)
  have hdig : ds.all Char.isDigit = true :=
    List.all_eq_true.mpr (fun c hc => (asciiDigit_facts c (hd c hc)).1)
  unfold pyIntOfString
  simp only [hstrip]
  cases ds with
  | nil => exact absurd rfl hne
  | cons d rest =>
    have hdne : d ≠ '-' := (asciiDigit_facts d (hd d (List.mem_cons_self d rest))).2.2.1
    split
    case _ ds0 heq =>
      injection heq with h1 h2
      exact absurd h1 hdne
    case _ =>
      simp_all

/-- The model of Python `int()` rejects a digit string with a trailing
`T`. -/
theorem pyIntOfString_digits_T {ds : List Char} (hne : ds ≠ [])
    (hd : ∀ c ∈ ds, isAsciiDigitChar c = true)
    (hstrip : stripChars (ds ++ ['T']) = ds ++ ['T']) :
    pyIntOfString ⟨ds ++ ['T']⟩ = none := by
  unfold pyIntOfString
  simp only [hstrip]
  cases ds with
  | nil => exact absurd rfl hne
  | cons d rest =>
    have hdne : d ≠ '-' := (asciiDigit_facts d (hd d (List.mem_cons_self d rest))).2.2.1
    have hT : ((d :: rest) ++ ['T']).all Char.isDigit = false := by
      simp [List.all_append]
    split
    case _ ds0 heq =>
      rw [List.cons_append] at heq
      injection heq with h1 h2
      exact absurd h1 hdne
    case _ =>
      simp_all [List.all_append]

/-- The model of Python `float()` on a nonempty all-digit string. -/
theorem pyFloatOfString_digits {ds : List Char} (hne : ds ≠ [])
    (hd : ∀ c ∈ ds, isAsciiDigitChar c = true) :
    pyFloatOfString ⟨ds⟩ = some { num := (digitsToNat ds : Int), frac := 0 } := by
  have hstrip : stripChars ds = ds :=
    stripChars_eq_self (fun c hc => (asciiDigit_facts c (hd c hc)).2.1)
  have hdig : ds.all Char.isDigit = true :=
    List.all_eq_true.mpr (fun c hc => (asciiDigit_facts c (hd c hc)).1)
  have hsplit : splitOnChar '.' ds = [ds] :=
    splitOnChar_of_not_mem (fun x hx => (asciiDigit_facts x (hd x hx)).2.2.2)
  unfold pyFloatOfString
  simp only [hstrip]
  cases ds with
  | nil => exact absurd rfl hne
  | cons d rest =>
    have hdne : d ≠ '-' := (asciiDigit_facts d (hd d (List.mem_cons_self d rest))).2.2.1
    split
    case _ ds0 heq =>
      injection heq with h1 h2
      exact absurd h1 hdne
    case _ =>
      simp_all

/-- Truncation of an exact nonnegative integer-valued decimal. -/
theorem pyTrunc_ofNat (m : Nat) : pyTrunc { num := (m : Int), frac := 0 } = (m : Int) := by
  simp [pyTrunc]

/-- C5 (amended): for every nonempty all-digit size string, the disk
normaliser maps an `M` suffix to the number as-is, a `G` suffix to the
number times 1024 and a `T` suffix to the number times 1024 times 1024;
the memory normaliser handles `M` and `G` the same way but has no `T`
branch — a `T`-suffixed memory string falls through to `int()` and raises
`ValueError` (modelled as `none`).  The `2 ^ 40` bound keeps the values in
the range where IEEE doubles represent the products exactly, so the
decimal model coincides with CPython's float arithmetic. -/
theorem C5_memory_disk_amended :
    ∀ ds : List Char, ds ≠ [] → (∀ c ∈ ds, isAsciiDigitChar c = true) →
      digitsToNat ds < 2 ^ 40 →
      Runtime.parse_memory_to_mb ⟨ds ++ ['M']⟩ = some ((digitsToNat ds : Int)) ∧
      Runtime.parse_memory_to_mb ⟨ds ++ ['G']⟩ = some ((digitsToNat ds : Int) * 1024) ∧
      Runtime.parse_memory_to_mb ⟨ds ++ ['T']⟩ = none ∧
      Runtime.parse_disk_to_mb ⟨ds ++ ['M']⟩ = some ((digitsToNat ds : Int)) ∧
      Runtime.parse_disk_to_mb ⟨ds ++ ['G']⟩ = some ((digitsToNat ds : Int) * 1024) ∧
      Runtime.parse_disk_to_mb ⟨ds ++ ['T']⟩
        = some ((digitsToNat ds : Int) * 1024 * 1024) := by
  intro ds hne hd _hbound
  have hmem : ∀ (c : Char), isSpaceChar c = false →
      ∀ x ∈ ds ++ [c], isSpaceChar x = false := by
    intro c hcs x hx
    rcases List.mem_append.mp hx with h | h
    · exact (asciiDigit_facts x (hd x h)).2.1
    · simp only [List.mem_singleton] at h; subst h; exact hcs
  have hstripM := stripChars_eq_self (hmem 'M' rfl)
  have hstripG := stripChars_eq_self (hmem 'G' rfl)
  have hstripT := stripChars_eq_self (hmem 'T' rfl)
  have hint := pyIntOfString_digits hne hd
  have hfloat := pyFloatOfString_digits hne hd
  have hintT := pyIntOfString_digits_T hne hd hstripT
  refine ⟨?_, ?_, ?_, ?_, ?_, ?_⟩ <;>
    simp only [Runtime.parse_memory_to_mb, Runtime.parse_disk_to_mb,
      hstripM, hstripG, hstripT, List.getLast?_concat, List.dropLast_concat,
      hint, hintT, hfloat, Option.map_some] <;>
    simp [PyFloat.scale, pyTrunc, Int.toNat_ofNat, mul_assoc]

/-- C5 (witness): the amended theorem at `"2"`, recovering the claim's
example `"2G"` to 2048 and the disk `T` factor. -/
theorem C5_memory_disk_witness :
    Runtime.parse_memory_to_mb "2G" = some 2048 ∧
    Runtime.parse_disk_to_mb "4T" = some 4194304 := by
  have h2 := (C5_memory_disk_amended ['2'] (by decide) (by decide) (by decide)).2.1
  have h4 := (C5_memory_disk_amended ['4'] (by decide) (by decide) (by decide)).2.2.2.2.2
  exact ⟨by simpa using h2, by simpa using h4⟩

/-- Unfolding of a successful `Except` bind. -/
theorem bind_ok_iff {α β : Type} {x : Except PyErr α} {f : α → Except PyErr β} {b : β} :
    (x >>= f) = .ok b ↔ ∃ a, x = .ok a ∧ f a = .ok b := by
  cases x with
  | ok a => simp [Bind.bind, Except.bind]
  | error e => simp [Bind.bind, Except.bind]

/-- Unfolding of a successful `Except` map. -/
theorem map_ok_iff {α β : Type} {x : Except PyErr α} {f : α → β} {b : β} :
    x.map f = .ok b ↔ ∃ a, x = .ok a ∧ f a = b := by
  cases x with
  | ok a => simp [Except.map]
  | error e => simp [Except.map]

theorem find?_map_keyUpdate_ne (k k' : String) (v : JVal) (h : k' ≠ k) :
    ∀ kvs : List (String × JVal),
      List.find? (fun kv => kv.1 = k') (kvs.map (fun kv => if kv.1 = k then (k, v) else kv))
        = List.find? (fun kv => kv.1 = k') kvs := by
  intro kvs
  induction kvs with
  | nil => rfl
  | cons kv rest ih =>
    by_cases hk : kv.1 = k
    · have e1 : (decide ((k, v).1 = k')) = false := decide_eq_false (fun hh => h hh.symm)
      have e2 : (decide (kv.1 = k')) = false :=
        decide_eq_false (by rw [hk]; exact fun hh => h hh.symm)
      simp only [List.map_cons, if_pos hk, List.find?_cons, e1, e2]
      exact ih
    · simp only [List.map_cons, if_neg hk, List.find?_cons]
      cases hd : decide (kv.1 = k')
      · exact ih
      · rfl

theorem dictGet_dictSet_ne (k k' : String) (v : JVal) (h : k' ≠ k)
    (kvs : List (String × JVal)) :
    JVal.dictGet (JVal.dictSet kvs k v) k' = JVal.dictGet kvs k' := by
  unfold JVal.dictSet
  split
  · unfold JVal.dictGet
    rw [find?_map_keyUpdate_ne k k' v h]
  · unfold JVal.dictGet
    rw [List.find?_append]
    have e0 : List.find? (fun kv => decide (kv.1 = k')) [(k, v)] = none := by
      have e1 : (decide ((k, v).1 = k')) = false := decide_eq_false (fun hh => h hh.symm)
      simp only [List.find?_cons, e1, List.find?_nil]
    rw [e0]
    cases List.find? (fun kv => decide (kv.1 = k')) kvs <;> rfl

theorem find?_map_keyUpdate_self (k : String) (v : JVal) :
    ∀ kvs : List (String × JVal),
      (List.find? (fun kv => kv.1 = k) kvs).isSome = true →
      List.find? (fun kv => kv.1 = k) (kvs.map (fun kv => if kv.1 = k then (k, v) else kv))
        = some (k, v) := by
  intro kvs
  induction kvs with
  | nil => intro h; simp [List.find?_nil] at h
  | cons kv rest ih =>
    intro h
    by_cases hk : kv.1 = k
    · simp [List.map_cons, if_pos hk, List.find?_cons]
    · have e2 : (decide (kv.1 = k)) = false := decide_eq_false hk
      simp only [List.find?_cons, e2] at h
      simp only [List.map_cons, if_neg hk, List.find?_cons, e2]
      exact ih h

theorem dictGet_dictSet_self (k : String) (v : JVal) (kvs : List (String × JVal)) :
    JVal.dictGet (JVal.dictSet kvs k v) k = some v := by
  unfold JVal.dictSet
  split
  case isTrue hfound =>
    unfold JVal.dictGet
    rw [find?_map_keyUpdate_self k v kvs hfound]
    rfl
  case isFalse hfound =>
    unfold JVal.dictGet
    rw [List.find?_append]
    have e0 : List.find? (fun kv => decide (kv.1 = k)) kvs = none :=
      Option.not_isSome_iff_eq_none.mp hfound
    rw [e0]
    simp [List.find?_cons]

/-- Binding a successful `Except` computation. -/
theorem ok_bind {α β : Type} (a : α) (f : α → Except PyErr β) :
    (Except.ok a >>= f) = f a := rfl

/-- Binding a failed `Except` computation. -/
theorem error_bind {α β : Type} (e : PyErr) (f : α → Except PyErr β) :
    (Except.error e >>= f) = Except.error e := rfl

/-- Setting a non-`class` integer key preserves the resource-requirement
mapping's shape: the `class` entry and the all-integers-elsewhere
property. -/
theorem resourceShape_set (rr : List (String × JVal)) (k : String) (n : Int)
    (hk : k ≠ "class")
    (h1 : JVal.dictGet rr "class" = some (JVal.str "ResourceRequirement"))
    (h2 : ∀ key, key ≠ "class" → ∀ v, JVal.dictGet rr key = some v → ∃ m, v = JVal.int m) :
    JVal.dictGet (JVal.dictSet rr k (JVal.int n)) "class"
        = some (JVal.str "ResourceRequirement") ∧
    (∀ key, key ≠ "class" → ∀ v,
      JVal.dictGet (JVal.dictSet rr k (JVal.int n)) key = some v → ∃ m, v = JVal.int m) := by
  constructor
  · rw [dictGet_dictSet_ne k "class" _ (Ne.symm hk)]
    exact h1
  · intro key hkey v hv
    by_cases hkk : key = k
    · subst hkk
      rw [dictGet_dictSet_self] at hv
      exact ⟨n, (Option.some.injEq .. ▸ hv : JVal.int n = v).symm⟩
    · rw [dictGet_dictSet_ne k key _ hkk] at hv
      exact h2 key hkey v hv

/-- A requirement mapping with `class: ResourceRequirement` and integer
values elsewhere is consumed by `parse_requirements_step` without error
and without touching the `docker` field. -/
theorem resource_step_docker (rr : List (String × JVal)) (rt : Runtime)
    (h1 : JVal.dictGet rr "class" = some (JVal.str "ResourceRequirement"))
    (h2 : ∀ key, key ≠ "class" → ∀ v, JVal.dictGet rr key = some v → ∃ m, v = JVal.int m) :
    ∃ rt2, CWLParser.parse_requirements_step rt (JVal.dict rr) = .ok rt2 ∧
      rt2.docker = rt.docker := by
  have hD : JVal.eqStr ((JVal.dictGet rr "class").getD (JVal.str "")) "DockerRequirement"
      = false := by rw [h1]; rfl
  have hR : JVal.eqStr ((JVal.dictGet rr "class").getD (JVal.str "")) "ResourceRequirement"
      = true := by rw [h1]; rfl
  unfold CWLParser.parse_requirements_step
  simp only [expectDict, ok_bind, hD, hR, Bool.false_eq_true, if_false, if_true]
  by_cases hc : JVal.dictHas rr "coresMin" = true
  · have hsome : ∃ v, JVal.dictGet rr "coresMin" = some v := by
      unfold JVal.dictHas at hc
      unfold JVal.dictGet
      rcases Option.isSome_iff_exists.mp hc with ⟨e, he⟩
      exact ⟨e.2, by rw [he]; rfl⟩
    obtain ⟨v, hv⟩ := hsome
    obtain ⟨m, hm⟩ := h2 "coresMin" (by decide) v hv
    subst hm
    simp only [hc, if_true, hv, Option.getD_some, expectInt, ok_bind]
    refine ⟨_, rfl, ?_⟩
    simp [apply_ite Runtime.docker]
  · simp only [hc]
    simp only [Bool.false_eq_true, if_false, pure, Except.pure, ok_bind]
    refine ⟨_, rfl, ?_⟩
    simp [apply_ite Runtime.docker]

/-- `ramStep` preserves the resource mapping's shape. -/
theorem ramStep_shape {rr rr' : List (String × JVal)} {mem : Option String}
    (h : Runtime.ramStep rr mem = .ok rr')
    (h1 : JVal.dictGet rr "class" = some (JVal.str "ResourceRequirement"))
    (h2 : ∀ key, key ≠ "class" → ∀ v, JVal.dictGet rr key = some v → ∃ m, v = JVal.int m) :
    JVal.dictGet rr' "class" = some (JVal.str "ResourceRequirement") ∧
    ∀ key, key ≠ "class" → ∀ v, JVal.dictGet rr' key = some v → ∃ m, v = JVal.int m := by
  unfold Runtime.ramStep at h
  split at h
  · split at h
    · simp only [pure, Except.pure, Except.ok.injEq] at h
      subst h
      exact resourceShape_set _ _ _ (by decide) h1 h2
    · exact absurd h (by simp)
  · simp only [pure, Except.pure, Except.ok.injEq] at h
    subst h
    exact ⟨h1, h2⟩

/-- `outdirStep` preserves the resource mapping's shape. -/
theorem outdirStep_shape {rr rr' : List (String × JVal)} {disk : Option String}
    (h : Runtime.outdirStep rr disk = .ok rr')
    (h1 : JVal.dictGet rr "class" = some (JVal.str "ResourceRequirement"))
    (h2 : ∀ key, key ≠ "class" → ∀ v, JVal.dictGet rr key = some v → ∃ m, v = JVal.int m) :
    JVal.dictGet rr' "class" = some (JVal.str "ResourceRequirement") ∧
    ∀ key, key ≠ "class" → ∀ v, JVal.dictGet rr' key = some v → ∃ m, v = JVal.int m := by
  unfold Runtime.outdirStep at h
  split at h
  · split at h
    · simp only [pure, Except.pure, Except.ok.injEq] at h
      subst h
      exact resourceShape_set _ _ _ (by decide) h1 h2
    · exact absurd h (by simp)
  · simp only [pure, Except.pure, Except.ok.injEq] at h
    subst h
    exact ⟨h1, h2⟩

/-- C6: for every Runtime whose `docker` is a non-empty string `d`,
`to_cwl_requirements` (when it succeeds) emits a `DockerRequirement`
mapping with `dockerPull: d`, and feeding the emitted requirement list
back through `CWLParser._parse_requirements` recovers a Runtime whose
`docker` equals `d`. -/
theorem C6_docker_requirement_roundtrip :
    ∀ (rt : Runtime) (d : String) (reqs : List JVal),
      rt.docker = some d → d ≠ "" → rt.to_cwl_requirements = .ok reqs →
      JVal.dict [("class", JVal.str "DockerRequirement"), ("dockerPull", JVal.str d)] ∈ reqs ∧
      (CWLParser.parse_requirements reqs).map Runtime.docker = .ok (some d) := by
  intro rt d reqs hdock hdne hok
  have htruthy : optStrTruthy (some d) = true := by simp [optStrTruthy, hdne]
  unfold Runtime.to_cwl_requirements Runtime.to_cwl_requirementsS at hok
  rw [map_ok_iff] at hok
  obtain ⟨pair, hS, hfst⟩ := hok
  simp only [hdock, htruthy, if_true, Option.getD_some] at hS
  rw [bind_ok_iff] at hS
  obtain ⟨rr2, hm, hS⟩ := hS
  rw [bind_ok_iff] at hS
  obtain ⟨rr3, hdk, hS⟩ := hS
  simp only [pure, Except.pure, Except.ok.injEq] at hS
  subst hS
  -- Shape of the resource mapping after the optional `coresMin` update
  have hbase1 : JVal.dictGet [(("class" : String), JVal.str "ResourceRequirement")] "class"
      = some (JVal.str "ResourceRequirement") := rfl
  have hbase2 : ∀ key, key ≠ "class" → ∀ v,
      JVal.dictGet [(("class" : String), JVal.str "ResourceRequirement")] key = some v →
      ∃ m, v = JVal.int m := by
    intro key hkey v hv
    unfold JVal.dictGet at hv
    simp only [List.find?_cons, List.find?_nil] at hv
    have he : (decide ((("class" : String), JVal.str "ResourceRequirement").1 = key)) = false :=
      decide_eq_false (fun hh => hkey hh.symm)
    rw [he] at hv
    exact absurd hv (by simp)
  have hrr1 :
      JVal.dictGet (if optIntTruthy rt.cpu = true then
          JVal.dictSet [("class", JVal.str "ResourceRequirement")] "coresMin"
            (JVal.int (rt.cpu.getD 0))
        else [("class", JVal.str "ResourceRequirement")]) "class"
        = some (JVal.str "ResourceRequirement") ∧
      ∀ key, key ≠ "class" → ∀ v,
        JVal.dictGet (if optIntTruthy rt.cpu = true then
            JVal.dictSet [("class", JVal.str "ResourceRequirement")] "coresMin"
              (JVal.int (rt.cpu.getD 0))
          else [("class", JVal.str "ResourceRequirement")]) key = some v →
        ∃ m, v = JVal.int m := by
    by_cases hcpu : optIntTruthy rt.cpu = true
    · simp only [hcpu, if_true]
      exact resourceShape_set _ _ _ (by decide) hbase1 hbase2
    · simp only [hcpu, if_false]
      exact ⟨hbase1, hbase2⟩
  have hrr2 := ramStep_shape hm hrr1.1 hrr1.2
  have hrr3 := outdirStep_shape hdk hrr2.1 hrr2.2
  -- Conclusions, by cases on whether a ResourceRequirement is emitted
  subst hfst
  by_cases hlen : rr3.length > 1
  · simp only [hlen, if_true]
    constructor
    · exact List.mem_append_left _ (List.mem_singleton_self _)
    · have hstep1 : CWLParser.parse_requirements_step {}
          (JVal.dict [("class", JVal.str "DockerRequirement"),
                      ("dockerPull", JVal.str d)])
          = .ok { docker := some d } := rfl
      obtain ⟨rt2, hstep2, hdock2⟩ := resource_step_docker rr3 { docker := some d }
        hrr3.1 hrr3.2
      unfold CWLParser.parse_requirements
      simp only [List.cons_append, List.nil_append, foldME, hstep1, ok_bind, hstep2,
        Except.map, hdock2]
  · simp only [hlen, if_false]
    exact ⟨List.mem_singleton_self _, rfl⟩

/-- C6 (witness): the round trip at `docker = "ubuntu:20.04"` with a
resource requirement alongside. -/
theorem C6_docker_requirement_witness :
    ∃ reqs, Runtime.to_cwl_requirements
        { docker := some "ubuntu:20.04", cpu := some 1, memory := some "2G" } = .ok reqs ∧
      JVal.dict [("class", JVal.str "DockerRequirement"),
                 ("dockerPull", JVal.str "ubuntu:20.04")] ∈ reqs ∧
      (CWLParser.parse_requirements reqs).map Runtime.docker = .ok (some "ubuntu:20.04") := by
  refine ⟨_, rfl, ?_⟩
  exact (C6_docker_requirement_roundtrip
    { docker := some "ubuntu:20.04", cpu := some 1, memory := some "2G" }
    "ubuntu:20.04" _ rfl (by decide) rfl)

/-- Strings with equal character lists are equal. -/
theorem strExt {a b : String} (h : a.data = b.data) : a = b := by
  cases a; cases b; exact congrArg String.mk h

/-- `"call." ++ _` is injective. -/
theorem callLoc_inj {a b : String} (h : ("call." ++ a : String) = "call." ++ b) : a = b := by
  have h2 : ("call." ++ a : String).data = ("call." ++ b : String).data := congrArg String.data h
  exact strExt (List.append_cancel_left h2)

/-- Strings whose first characters differ are different. -/
theorem strNe_of_head {a b : String} (h : a.data.head? ≠ b.data.head?) : a ≠ b :=
  fun he => h (by rw [he])

/-- Every finding `_validate_call` produces carries the call's location. -/
theorem validate_call_loc (x : WorkflowCall) (wf : Workflow) :
    ∀ e ∈ WorkflowValidator.validate_call x wf, e.location = "call." ++ x.call_id := by
  intro e he
  unfold WorkflowValidator.validate_call at he
  split at he
  · simp only [List.mem_singleton] at he
    subst he
    rfl
  · split at he
    · exact absurd he (by simp)
    · rcases List.mem_append.mp he with h | h <;>
        · obtain ⟨_, _, rfl⟩ := List.mem_map.mp h
          rfl

/-- `_validate_call` on an unresolved call yields exactly the one
warning. -/
theorem validate_call_unresolved (c : WorkflowCall) (wf : Workflow)
    (h : wf.hasTask c.task_name = false) :
    WorkflowValidator.validate_call c wf = [unresolvedWarning c] := by
  unfold WorkflowValidator.validate_call
  rw [if_pos (by simp [h])]
  rfl

/-- Findings of a call with a different id never match the target
location filter. -/
theorem filter_validate_call_ne (x c : WorkflowCall) (wf : Workflow)
    (hne : x.call_id ≠ c.call_id) :
    (WorkflowValidator.validate_call x wf).filter
      (fun e => e.location = "call." ++ c.call_id) = [] := by
  refine List.filter_eq_nil_iff.mpr (fun e he => ?_)
  rw [validate_call_loc x wf e he]
  simp only [decide_eq_true_eq]
  exact fun hh => hne (callLoc_inj hh)

/-- Every finding `_validate_task` produces is located at the task (or has
an empty location), never at a call. -/
theorem validate_task_loc (t : Task) :
    ∀ e ∈ WorkflowValidator.validate_task_errors t, e.location.data.head? ≠ some 'c' := by
  intro e he
  unfold WorkflowValidator.validate_task_errors at he
  rcases List.mem_append.mp he with he | he
  · rcases List.mem_append.mp he with he | he
    · rcases List.mem_append.mp he with he | he
      · split at he
        · simp only [List.mem_singleton] at he; subst he; simp
        · exact absurd he (by simp)
      · split at he
        · simp only [List.mem_singleton] at he; subst he; simp
        · exact absurd he (by simp)
    · obtain ⟨_, _, rfl⟩ := List.mem_map.mp he
      simp
  · split at he
    · split at he
      · split at he
        · simp only [List.mem_singleton] at he; subst he; simp
        · exact absurd he (by simp)
      · exact absurd he (by simp)
    · exact absurd he (by simp)

/-- A location filter that rejects every produced finding yields nothing
from a `flatMap`. -/
theorem filter_flatMap_nil {α : Type} (p : ValidationError → Bool)
    (f : α → List ValidationError) :
    ∀ l : List α, (∀ x ∈ l, (f x).filter p = []) → (l.flatMap f).filter p = [] := by
  intro l
  induction l with
  | nil => intro _; rfl
  | cons x rest ih =>
    intro h
    rw [List.flatMap_cons, List.filter_append, h x (List.mem_cons_self x rest),
      ih (fun y hy => h y (List.mem_cons_of_mem x hy))]
    rfl

/-- Filtering the per-call findings of a workflow whose call ids are
distinct down to one unresolved call's location leaves exactly its
warning. -/
theorem filter_calls_unresolved (wf : Workflow) (c : WorkflowCall) :
    ∀ l : List WorkflowCall, c ∈ l → (l.map WorkflowCall.call_id).Nodup →
      wf.hasTask c.task_name = false →
      ((l.flatMap (fun x => WorkflowValidator.validate_call x wf)).filter
        (fun e => e.location = "call." ++ c.call_id)) = [unresolvedWarning c] := by
  intro l
  induction l with
  | nil => intro h; exact absurd h (List.not_mem_nil c)
  | cons x rest ih =>
    intro hmem hnodup hur
    rw [List.map_cons, List.nodup_cons] at hnodup
    rw [List.flatMap_cons, List.filter_append]
    rcases List.mem_cons.mp hmem with heq | hmem2
    · subst heq
      rw [validate_call_unresolved c wf hur]
      have h1 : (List.filter (fun e => e.location = "call." ++ c.call_id)
          [unresolvedWarning c]) = [unresolvedWarning c] := by
        simp [unresolvedWarning, List.filter]
      rw [h1]
      have h2 : ∀ y ∈ rest, (WorkflowValidator.validate_call y wf).filter
          (fun e => e.location = "call." ++ c.call_id) = [] := by
        intro y hy
        refine filter_validate_call_ne y c wf (fun hid => ?_)
        exact hnodup.1 (hid ▸ List.mem_map_of_mem WorkflowCall.call_id hy)
      rw [filter_flatMap_nil _ _ rest h2, List.append_nil]
    · have hxc : x.call_id ≠ c.call_id := by
        intro hid
        exact hnodup.1 (hid ▸ List.mem_map_of_mem WorkflowCall.call_id hmem2)
      rw [filter_validate_call_ne x c wf hxc, List.nil_append]
      exact ih hmem2 hnodup.2 hur

/-- Findings located at a call are produced by no validator section other
than `_validate_call` (those sections use empty, `task.`-, or
`workflow.`-prefixed locations). -/
theorem filter_other_sections (wf : Workflow) (c : WorkflowCall) :
    ((if wf.name = "" then
        [({ level := "ERROR", message := "Workflow missing name", location := "" }
          : ValidationError)] else []).filter
      (fun e => e.location = "call." ++ c.call_id) = []) ∧
    ((wf.tasks.flatMap (fun kv => WorkflowValidator.validate_task_errors kv.2)).filter
      (fun e => e.location = "call." ++ c.call_id) = []) ∧
    (((simple_cycles wf.get_dependency_graph).map (fun cycle =>
        ({ level := "ERROR"
           message := "Circular dependency detected: " ++ " -> ".intercalate cycle
           location := "" } : ValidationError))).filter
      (fun e => e.location = "call." ++ c.call_id) = []) := by
  have hhead : ("call." ++ c.call_id : String).data.head? = some 'c' := rfl
  refine ⟨?_, ?_, ?_⟩
  · split
    · refine List.filter_eq_nil_iff.mpr (fun e he => ?_)
      simp only [List.mem_singleton] at he
      subst he
      simp only [decide_eq_true_eq]
      exact strNe_of_head (by rw [hhead]; simp)
    · rfl
  · refine filter_flatMap_nil _ _ wf.tasks (fun kv _ => ?_)
    refine List.filter_eq_nil_iff.mpr (fun e he => ?_)
    simp only [decide_eq_true_eq]
    intro heq
    exact validate_task_loc kv.2 e he (heq ▸ hhead)
  · refine List.filter_eq_nil_iff.mpr (fun e he => ?_)
    obtain ⟨_, _, rfl⟩ := List.mem_map.mp he
    simp only [decide_eq_true_eq]
    exact strNe_of_head (by rw [hhead]; simp)

/-- C8: an unresolved call produces exactly one WARNING-level finding (and
no ERROR) at its own location when call ids are distinct; the converter's
`validate_conversion` is `False` for such a workflow; and
`validate_conversion` is `True` only when a Workflow has a name and every
call resolves within its own task set, and only when a Task has a name and
a non-empty command. -/
theorem C8_unresolved_call :
    (∀ (wf : Workflow) (c : WorkflowCall), c ∈ wf.calls →
      (wf.calls.map WorkflowCall.call_id).Nodup →
      wf.hasTask c.task_name = false →
      ((WorkflowValidator.validate_workflow wf).2.filter
        (fun e => e.location = "call." ++ c.call_id)) = [unresolvedWarning c]) ∧
    (∀ (wf : Workflow) (c : WorkflowCall), c ∈ wf.calls →
      wf.hasTask c.task_name = false →
      WDLToCWLConverter.validate_conversion (.workflow wf) = false) ∧
    (∀ el : Element, WDLToCWLConverter.validate_conversion el = true →
      (match el with
       | .workflow wf => wf.name ≠ "" ∧ ∀ c ∈ wf.calls, wf.hasTask c.task_name = true
       | .task t => t.name ≠ "" ∧ t.command ≠ "")) := by
  refine ⟨?_, ?_, ?_⟩
  · intro wf c hc hnd hur
    have hhead : ("call." ++ c.call_id : String).data.head? = some 'c' := rfl
    obtain ⟨hf1, hf3, hf4⟩ := filter_other_sections wf c
    have hf2 := filter_calls_unresolved wf c wf.calls hc hnd hur
    have hf5 : ((wf.inputs.filter (fun inp =>
        !((wf.calls.flatMap (fun cl => cl.inputs.filterMap (fun kv =>
            match kv.2 with
            | .str v => if !strContains v "." then some v else none
            | _ => none))).contains inp.name))).map (fun inp =>
          ({ level := "WARNING"
             message := "Input " ++ inp.name ++ " is not used by any call"
             location := "workflow.inputs" } : ValidationError))).filter
        (fun e => e.location = "call." ++ c.call_id) = [] := by
      refine List.filter_eq_nil_iff.mpr (fun e he => ?_)
      obtain ⟨_, _, rfl⟩ := List.mem_map.mp he
      simp only [decide_eq_true_eq]
      exact strNe_of_head (by rw [hhead]; simp)
    have hf6 : ((wf.outputs.filterMap (fun out =>
        match out.expression with
        | some e =>
          if e ≠ "" && strContains e "." then
            let call_ref := (pySplitChar '.' e).headD ""
            if !(wf.calls.any (fun cl => cl.call_id = call_ref)) then
              some (ValidationError.mk "ERROR"
              ("Output " ++ out.name ++ " references unknown call " ++ call_ref)
              "workflow.outputs")
            else none
          else none
        | none => none)).filter
        (fun e => e.location = "call." ++ c.call_id) = []) := by
      refine List.filter_eq_nil_iff.mpr (fun e he => ?_)
      obtain ⟨out, _, hf⟩ := List.mem_filterMap.mp he
      split at hf
      · split at hf
        · simp only [] at hf
          split at hf
          · simp only [Option.some.injEq] at hf
            subst hf
            simp only [decide_eq_true_eq]
            exact strNe_of_head (by rw [hhead]; simp)
          · exact absurd hf (by simp)
        · exact absurd hf (by simp)
      · exact absurd hf (by simp)
    unfold WorkflowValidator.validate_workflow
    simp only [List.filter_append, hf1, hf2, hf3, hf4, hf5, hf6, List.nil_append,
      List.append_nil]
  · intro wf c hc hur
    simp only [WDLToCWLConverter.validate_conversion]
    split
    · rfl
    · cases hall : wf.calls.all (fun cl => wf.hasTask cl.task_name)
      · rfl
      · exact absurd (List.all_eq_true.mp hall c hc) (by simp [hur])
  · intro el hv
    cases el with
    | workflow wf =>
      simp only [WDLToCWLConverter.validate_conversion] at hv
      split at hv
      · exact absurd hv (by simp)
      · next hname =>
        exact ⟨hname, fun c hc => List.all_eq_true.mp hv c hc⟩
    | task t =>
      simp only [WDLToCWLConverter.validate_conversion] at hv
      split at hv
      · exact absurd hv (by simp)
      · next hname =>
        exact ⟨hname, by simpa using hv⟩

/-- C8 (witness): the theorem applied to a concrete workflow with one
unresolved call. -/
theorem C8_unresolved_call_witness :
    ((WorkflowValidator.validate_workflow c8Wf).2.filter
      (fun e => e.location = "call." ++ "c1"))
      = [unresolvedWarning { call_id := "c1", task_name := "ghost", inputs := [] }] ∧
    WDLToCWLConverter.validate_conversion (.workflow c8Wf) = false ∧
    WDLToCWLConverter.validate_conversion
      (.task { name := "t", command := "echo" }) = true :=
  ⟨C8_unresolved_call.1 c8Wf _ (List.mem_singleton_self _) (by decide) rfl,
   C8_unresolved_call.2.1 c8Wf { call_id := "c1", task_name := "ghost", inputs := [] }
     (List.mem_singleton_self _) rfl,
   rfl⟩

/-- C10: the Language-B parser gives every parsed `CommandLineTool` a
non-`None` runtime — with every field at its default when the document has
no (or an empty) `requirements` list — whereas the Language-A parser
leaves `runtime` as `None` when the task body contains no `runtime`
section. -/
theorem C10_runtime_presence :
    (∀ (doc : List (String × JVal)) (t : Task),
      CWLParser.parse_command_line_tool doc = .ok t → t.runtime.isSome = true) ∧
    (∀ (doc : List (String × JVal)) (t : Task),
      CWLParser.parse_command_line_tool doc = .ok t →
      (JVal.dictGet doc "requirements" = none ∨
       JVal.dictGet doc "requirements" = some (JVal.list [])) →
      t.runtime = some {}) ∧
    (∀ (name body : String) (t : Task),
      WDLParser.parse_task name body = .ok t →
      reSearch (WDLParser.sectionPat "runtime") body.data = none →
      t.runtime = none) := by
  refine ⟨?_, ?_, ?_⟩
  · intro doc t h
    unfold CWLParser.parse_command_line_tool at h
    rw [bind_ok_iff] at h; obtain ⟨name, _, h⟩ := h
    rw [bind_ok_iff] at h; obtain ⟨dc, _, h⟩ := h
    rw [bind_ok_iff] at h; obtain ⟨inD, _, h⟩ := h
    rw [bind_ok_iff] at h; obtain ⟨ins, _, h⟩ := h
    rw [bind_ok_iff] at h; obtain ⟨outD, _, h⟩ := h
    rw [bind_ok_iff] at h; obtain ⟨outs, _, h⟩ := h
    simp only [] at h
    split at h <;>
      [skip; skip; (rw [error_bind] at h; exact absurd h (by simp))] <;>
      · rw [bind_ok_iff] at h; obtain ⟨bc, _, h⟩ := h
        rw [bind_ok_iff] at h; obtain ⟨args, _, h⟩ := h
        rw [bind_ok_iff] at h; obtain ⟨reqsL, _, h⟩ := h
        rw [bind_ok_iff] at h; obtain ⟨runtime, _, h⟩ := h
        simp only [pure, Except.pure, Except.ok.injEq] at h
        subst h
        rfl
  · intro doc t h hreq
    have hgetD : (JVal.dictGet doc "requirements").getD (JVal.list []) = JVal.list [] := by
      rcases hreq with hr | hr <;> rw [hr] <;> rfl
    unfold CWLParser.parse_command_line_tool at h
    rw [bind_ok_iff] at h; obtain ⟨name, _, h⟩ := h
    rw [bind_ok_iff] at h; obtain ⟨dc, _, h⟩ := h
    rw [bind_ok_iff] at h; obtain ⟨inD, _, h⟩ := h
    rw [bind_ok_iff] at h; obtain ⟨ins, _, h⟩ := h
    rw [bind_ok_iff] at h; obtain ⟨outD, _, h⟩ := h
    rw [bind_ok_iff] at h; obtain ⟨outs, _, h⟩ := h
    simp only [] at h
    split at h <;>
      [skip; skip; (rw [error_bind] at h; exact absurd h (by simp))] <;>
      · rw [bind_ok_iff] at h; obtain ⟨bc, _, h⟩ := h
        rw [bind_ok_iff] at h; obtain ⟨args, _, h⟩ := h
        rw [bind_ok_iff] at h; obtain ⟨reqsL, hreqsL, h⟩ := h
        rw [bind_ok_iff] at h; obtain ⟨runtime, hrt, h⟩ := h
        rw [hgetD] at hreqsL
        simp only [expectList, Except.ok.injEq] at hreqsL
        subst hreqsL
        simp only [CWLParser.parse_requirements, foldME, Except.ok.injEq] at hrt
        subst hrt
        simp only [pure, Except.pure, Except.ok.injEq] at h
        subst h
        rfl
  · intro name body t h hsearch
    unfold WDLParser.parse_task at h
    rw [hsearch] at h
    rcases hin : reSearch (WDLParser.sectionPat "input") body.data with _ | m1 <;>
      rcases hcmd : reSearch WDLParser.commandHeredocPat body.data with _ | m2 <;>
        rcases hbr : reSearch WDLParser.commandBracePat body.data with _ | m3 <;>
          rcases hout : reSearch (WDLParser.sectionPat "output") body.data with _ | m4 <;>
            simp_all [pure, Except.pure, ok_bind] <;>
            exact h ▸ rfl

/-- C10 (witness): the theorem applied to the concrete `CommandLineTool`
document (no `requirements` key) and to the concrete runtime-free WDL task
body. -/
theorem C10_runtime_presence_witness :
    (match CWLParser.parse_command_line_tool cltDoc with
     | .ok t => t.runtime = some {}
     | .error _ => False) ∧
    (match WDLParser.parse_task "hello" c10Body with
     | .ok t => t.runtime = none
     | .error _ => False) :=
  ⟨C10_runtime_presence.2.1 cltDoc _ rfl (Or.inl rfl),
   C10_runtime_presence.2.2 "hello" c10Body _ rfl rfl⟩

/-- `Input.to_cwlS` returns `self` unchanged. -/
theorem inputToCwlS_snd (inp : Input) (r : JVal × Input) (h : inp.to_cwlS = .ok r) :
    r.2 = inp := by
  unfold Input.to_cwlS at h
  rw [bind_ok_iff] at h
  obtain ⟨ty, _, h⟩ := h
  simp only [pure, Except.pure, Except.ok.injEq] at h
  subst h
  rfl

/-- `Output.to_cwlS` returns `self` unchanged. -/
theorem outputToCwlS_snd (out : Output) (r : JVal × Output) (h : out.to_cwlS = .ok r) :
    r.2 = out := by
  unfold Output.to_cwlS at h
  rw [bind_ok_iff] at h
  obtain ⟨ty, _, h⟩ := h
  simp only [pure, Except.pure, Except.ok.injEq] at h
  subst h
  rfl

/-- `Input.to_wdlS` returns `self` unchanged. -/
theorem inputToWdlS_snd (inp : Input) (r : String × Input) (h : inp.to_wdlS = .ok r) :
    r.2 = inp := by
  unfold Input.to_wdlS at h
  rw [bind_ok_iff] at h
  obtain ⟨ty, _, h⟩ := h
  split at h <;>
    · simp only [pure, Except.pure, Except.ok.injEq] at h
      subst h
      rfl

/-- `Output.to_wdlS` returns `self` unchanged. -/
theorem outputToWdlS_snd (out : Output) (r : String × Output) (h : out.to_wdlS = .ok r) :
    r.2 = out := by
  unfold Output.to_wdlS at h
  rw [bind_ok_iff] at h
  obtain ⟨ty, _, h⟩ := h
  split at h <;>
    · simp only [pure, Except.pure, Except.ok.injEq] at h
      subst h
      rfl

/-- A threaded loop of self-preserving method calls returns the list
unchanged. -/
theorem threadE_snd {α β : Type} (f : α → Except PyErr (β × α))
    (hf : ∀ a r, f a = .ok r → r.2 = a) :
    ∀ (l : List α) (r : List β × List α), threadE f l = .ok r → r.2 = l := by
  intro l
  induction l with
  | nil =>
    intro r h
    simp only [threadE, Except.ok.injEq] at h
    subst h
    rfl
  | cons x xs ih =>
    intro r h
    unfold threadE at h
    rw [bind_ok_iff] at h
    obtain ⟨bx, hbx, h⟩ := h
    rw [bind_ok_iff] at h
    obtain ⟨bs, hbs, h⟩ := h
    simp only [pure, Except.pure, Except.ok.injEq] at h
    subst h
    simp only [hf x bx hbx, ih bs hbs]

/-- `Runtime.to_cwl_requirementsS` returns `self` unchanged. -/
theorem rtReqS_snd (rt : Runtime) (r : List JVal × Runtime)
    (h : rt.to_cwl_requirementsS = .ok r) : r.2 = rt := by
  unfold Runtime.to_cwl_requirementsS at h
  rw [bind_ok_iff] at h
  obtain ⟨rr2, _, h⟩ := h
  rw [bind_ok_iff] at h
  obtain ⟨rr3, _, h⟩ := h
  simp only [pure, Except.pure, Except.ok.injEq] at h
  subst h
  rfl

/-- `Task.to_cwl_toolS` returns `self` unchanged. -/
theorem taskToCwlS_snd (t : Task) (r : JVal × Task) (h : t.to_cwl_toolS = .ok r) :
    r.2 = t := by
  unfold Task.to_cwl_toolS at h
  rw [bind_ok_iff] at h
  obtain ⟨ins, hins, h⟩ := h
  rw [bind_ok_iff] at h
  obtain ⟨outs, houts, h⟩ := h
  have hins2 : ins.2 = t.inputs := by
    refine threadE_snd _ (fun a r2 hr2 => ?_) t.inputs ins hins
    rw [map_ok_iff] at hr2
    obtain ⟨r0, h0, h1⟩ := hr2
    rw [← h1]
    exact inputToCwlS_snd a r0 h0
  have houts2 : outs.2 = t.outputs := by
    refine threadE_snd _ (fun a r2 hr2 => ?_) t.outputs outs houts
    rw [map_ok_iff] at hr2
    obtain ⟨r0, h0, h1⟩ := hr2
    rw [← h1]
    exact outputToCwlS_snd a r0 h0
  simp only [] at h
  split at h
  case _ rt hrt =>
    rw [bind_ok_iff] at h
    obtain ⟨reqp, hreq, h⟩ := h
    rw [bind_ok_iff] at h
    obtain ⟨y, hy, h⟩ := h
    simp only [pure, Except.pure, Except.ok.injEq] at hy h
    subst hy
    subst h
    simp only [hins2, houts2, rtReqS_snd rt reqp hreq, ← hrt]
  case _ hrt =>
    rw [bind_ok_iff] at h
    obtain ⟨y, hy, h⟩ := h
    simp only [pure, Except.pure, Except.ok.injEq] at hy h
    subst hy
    subst h
    simp only [hins2, houts2, ← hrt]

/-- `Runtime.to_wdl_runtimeS` returns `self` unchanged. -/
theorem toWdlRuntimeS_snd (rt : Runtime) : (rt.to_wdl_runtimeS).2 = rt := rfl

/-- `Task.to_wdl_taskS` returns `self` unchanged. -/
theorem taskToWdlS_snd (t : Task) (r : String × Task) (h : t.to_wdl_taskS = .ok r) :
    r.2 = t := by
  unfold Task.to_wdl_taskS at h
  rw [bind_ok_iff] at h
  obtain ⟨ins, hins, h⟩ := h
  have hins2 : ins.2 = t.inputs := threadE_snd _ inputToWdlS_snd t.inputs ins hins
  simp only [] at h
  split at h
  case _ rt hrt =>
    rw [bind_ok_iff] at h
    obtain ⟨p, hp, h⟩ := h
    rw [bind_ok_iff] at h
    obtain ⟨outs, houts, h⟩ := h
    have houts2 : outs.2 = t.outputs := threadE_snd _ outputToWdlS_snd t.outputs outs houts
    simp only [pure, Except.pure, Except.ok.injEq] at hp h
    subst hp
    subst h
    simp only [hins2, houts2, toWdlRuntimeS_snd, ← hrt]
  case _ hrt =>
    rw [bind_ok_iff] at h
    obtain ⟨p, hp, h⟩ := h
    rw [bind_ok_iff] at h
    obtain ⟨outs, houts, h⟩ := h
    have houts2 : outs.2 = t.outputs := threadE_snd _ outputToWdlS_snd t.outputs outs houts
    simp only [pure, Except.pure, Except.ok.injEq] at hp h
    subst hp
    subst h
    simp only [hins2, houts2, ← hrt]

/-- `Workflow.to_cwl_workflowS` returns `self` unchanged. -/
theorem wfToCwlS_snd (wf : Workflow) (r : JVal × Workflow)
    (h : wf.to_cwl_workflowS = .ok r) : r.2 = wf := by
  unfold Workflow.to_cwl_workflowS at h
  rw [bind_ok_iff] at h
  obtain ⟨ins, hins, h⟩ := h
  rw [bind_ok_iff] at h
  obtain ⟨outs, houts, h⟩ := h
  have hins2 : ins.2 = wf.inputs := by
    refine threadE_snd _ (fun a r2 hr2 => ?_) wf.inputs ins hins
    rw [map_ok_iff] at hr2
    obtain ⟨r0, h0, h1⟩ := hr2
    rw [← h1]
    exact inputToCwlS_snd a r0 h0
  have houts2 : outs.2 = wf.outputs := by
    refine threadE_snd _ (fun a r2 hr2 => ?_) wf.outputs outs houts
    rw [map_ok_iff] at hr2
    obtain ⟨r0, h0, h1⟩ := hr2
    rw [← h1]
    exact outputToCwlS_snd a r0 h0
  simp only [pure, Except.pure, Except.ok.injEq] at h
  subst h
  simp only [hins2, houts2]

/-- `Workflow.to_wdl_workflowS` returns `self` unchanged. -/
theorem wfToWdlS_snd (wf : Workflow) (r : String × Workflow)
    (h : wf.to_wdl_workflowS = .ok r) : r.2 = wf := by
  unfold Workflow.to_wdl_workflowS at h
  rw [bind_ok_iff] at h
  obtain ⟨ins, hins, h⟩ := h
  rw [bind_ok_iff] at h
  obtain ⟨outs, houts, h⟩ := h
  have hins2 : ins.2 = wf.inputs := threadE_snd _ inputToWdlS_snd wf.inputs ins hins
  have houts2 : outs.2 = wf.outputs := threadE_snd _ outputToWdlS_snd wf.outputs outs houts
  simp only [pure, Except.pure, Except.ok.injEq] at h
  subst h
  simp only [hins2, houts2]

/-- `CWLWriter._workflow_to_cwl` returns the workflow unchanged. -/
theorem workflowToCwlS_snd (wf : Workflow) (r : JVal × Workflow)
    (h : CWLWriter.workflow_to_cwlS wf = .ok r) : r.2 = wf := by
  unfold CWLWriter.workflow_to_cwlS at h
  rw [bind_ok_iff] at h
  obtain ⟨p, hp, h⟩ := h
  have hp2 : p.2 = wf := wfToCwlS_snd wf p hp
  simp only [] at h
  split at h
  · rw [bind_ok_iff] at h
    obtain ⟨kvs, hkvs, h⟩ := h
    rw [bind_ok_iff] at h
    obtain ⟨ts, hts, h⟩ := h
    have hts2 : ts.2 = wf.tasks := by
      refine threadE_snd _ (fun a r2 hr2 => ?_) wf.tasks ts hts
      rw [bind_ok_iff] at hr2
      obtain ⟨q, hq, hr2⟩ := hr2
      rw [bind_ok_iff] at hr2
      obtain ⟨tk, htk, hr2⟩ := hr2
      simp only [pure, Except.pure, Except.ok.injEq] at hr2
      subst hr2
      simp only [taskToCwlS_snd a.2 q hq]
    simp only [pure, Except.pure, Except.ok.injEq] at h
    subst h
    simp only [hp2, hts2]
  · simp only [pure, Except.pure, Except.ok.injEq] at h
    subst h
    exact hp2

/-- `CWLWriter.write` returns its element unchanged. -/
theorem cwlWriteS_snd (e : Element) (r : JVal × Element)
    (h : CWLWriter.writeS e = .ok r) : r.2 = e := by
  unfold CWLWriter.writeS at h
  cases e with
  | task t =>
    rw [bind_ok_iff] at h
    obtain ⟨p, hp, h⟩ := h
    rw [bind_ok_iff] at h
    obtain ⟨kvs, hkvs, h⟩ := h
    simp only [pure, Except.pure, Except.ok.injEq] at h
    subst h
    simp only [taskToCwlS_snd t p hp]
  | workflow wf =>
    rw [bind_ok_iff] at h
    obtain ⟨p, hp, h⟩ := h
    rw [bind_ok_iff] at h
    obtain ⟨kvs, hkvs, h⟩ := h
    simp only [pure, Except.pure, Except.ok.injEq] at h
    subst h
    simp only [workflowToCwlS_snd wf p hp]

/-- `WDLWriter._workflow_to_wdl_lines` returns the workflow unchanged. -/
theorem workflowToWdlLinesS_snd (wf : Workflow) (r : List String × Workflow)
    (h : WDLWriter.workflow_to_wdl_linesS wf = .ok r) : r.2 = wf := by
  unfold WDLWriter.workflow_to_wdl_linesS at h
  rw [bind_ok_iff] at h
  obtain ⟨ts, hts, h⟩ := h
  rw [bind_ok_iff] at h
  obtain ⟨p, hp, h⟩ := h
  have hts2 : ts.2 = wf.tasks := by
    refine threadE_snd _ (fun a r2 hr2 => ?_) wf.tasks ts hts
    rw [bind_ok_iff] at hr2
    obtain ⟨q, hq, hr2⟩ := hr2
    simp only [pure, Except.pure, Except.ok.injEq] at hr2
    subst hr2
    simp only [taskToWdlS_snd a.2 q hq]
  simp only [pure, Except.pure, Except.ok.injEq] at h
  subst h
  simp only [wfToWdlS_snd wf p hp, hts2]

/-- `WDLWriter.write` returns its element unchanged, for any version
header. -/
theorem wdlWriteS_snd (e : Element) (v : String) (r : String × Element)
    (h : WDLWriter.writeS e v = .ok r) : r.2 = e := by
  unfold WDLWriter.writeS at h
  cases e with
  | task t =>
    rw [bind_ok_iff] at h
    obtain ⟨p, hp, h⟩ := h
    simp only [pure, Except.pure, Except.ok.injEq] at h
    subst h
    simp only [taskToWdlS_snd t p hp]
  | workflow wf =>
    rw [bind_ok_iff] at h
    obtain ⟨p, hp, h⟩ := h
    simp only [pure, Except.pure, Except.ok.injEq] at h
    subst h
    simp only [workflowToWdlLinesS_snd wf p hp]

/-- C9: writer purity.  For every IR element (Workflow or Task), a
successful render by the Language-B writer (`CWLWriter.write`) or by the
Language-A writer (`WDLWriter.write`, any version header) hands back the
element exactly as it received it: the state-passing embeddings of the
writers, which thread `self` through every method the Python code calls
on the IR (`Input.to_cwl`/`to_wdl`, `Output.to_cwl`/`to_wdl`,
`Runtime.to_cwl_requirements`/`to_wdl_runtime`, `Task.to_cwl_tool`/
`to_wdl_task`, `Workflow.to_cwl_workflow`/`to_wdl_workflow`), return a
final state equal to the input element, so no field of the object graph
is mutated. -/
theorem C9_writer_purity (e : Element) :
    (∀ r, CWLWriter.writeS e = .ok r → r.2 = e) ∧
    (∀ v r, WDLWriter.writeS e v = .ok r → r.2 = e) :=
  ⟨fun r h => cwlWriteS_snd e r h, fun v r h => wdlWriteS_snd e v r h⟩

/-- Witness for C9: both writers succeed on a concrete task element and
return it unchanged. -/
theorem C9_writer_purity_witness :
    (match CWLWriter.writeS (Element.task c9Task) with
     | .ok r => r.2 = Element.task c9Task
     | .error _ => False) ∧
    (match WDLWriter.writeS (Element.task c9Task) "1.0" with
     | .ok r => r.2 = Element.task c9Task
     | .error _ => False) :=
  ⟨(C9_writer_purity (Element.task c9Task)).1 _ rfl,
   (C9_writer_purity (Element.task c9Task)).2 "1.0" _ rfl⟩

end Awlkit
